import Mathlib

set_option maxRecDepth 100000

/-!
Verification development for the thread-to-calendar reconciliation engine in
`src/orchestration/calendar-sync.py`.  The Python source is shallowly embedded:
pure functions become Lean functions, the stateful reconciler threads explicit
state, machine time is modelled as integer seconds since the Unix epoch, and
Python exceptions that escape a `try` block are modelled with `Except`.
Gateway subprocess invocations are modelled by an oracle assigning an outcome
to each call (indexed by a running call counter and the argument vector).
-/

namespace CalendarSync

/-! ### Character and string utilities (ASCII models of the Python `str` methods used) -/

/-- Left brace character (written with a hex escape). -/
def lbrace : Char := '\x7b'

/-- Right brace character (written with a hex escape). -/
def rbrace : Char := '\x7d'

def isDigitCh (c : Char) : Bool := decide ('0' ≤ c) && decide (c ≤ '9')

def digitVal (c : Char) : Nat := c.toNat - '0'.toNat

/-- Model of the regex class `\s` (ASCII whitespace; the Python pattern also
matches other Unicode whitespace, which no claim exercises). -/
def isSpaceCh (c : Char) : Bool :=
  c == ' ' || c == '\t' || c == '\n' || c == '\x0d' || c == '\x0b' || c == '\x0c'

def toLowerCh (c : Char) : Char :=
  if decide ('A' ≤ c) && decide (c ≤ 'Z') then Char.ofNat (c.toNat + 32) else c

def toUpperCh (c : Char) : Char :=
  if decide ('a' ≤ c) && decide (c ≤ 'z') then Char.ofNat (c.toNat - 32) else c

/-- Model of `str.lower()` (ASCII range; Unicode case folding is not exercised). -/
def strLower (s : String) : String := String.mk (s.data.map toLowerCh)

/-- Model of `str.upper()` (ASCII range). -/
def strUpper (s : String) : String := String.mk (s.data.map toUpperCh)

/-- Numeric value of a digit string (`int()` on a captured digit group). -/
def natOfDigits (l : List Char) : Nat := l.foldl (fun a c => a * 10 + digitVal c) 0

/-- Does the character list start with the given literal? -/
def startsWithL (pat : List Char) (l : List Char) : Bool :=
  List.isPrefixOf pat l

/-- `str.startswith` on strings. -/
def pyStartsWith (pat s : String) : Bool := startsWithL pat.data s.data

/-- Python's single-character `str.replace` (all occurrences, here used for
`replace("Z", "+00:00")`). -/
def replaceChar (c : Char) (rep : List Char) (s : String) : String :=
  String.mk ((s.data.map (fun d => if d == c then rep else [d])).flatten)

/-- Index of the first occurrence of a character (`str.find`), if any. -/
def findCharIdx (c : Char) : List Char → Option Nat
  | [] => none
  | d :: l => if d == c then some 0 else (findCharIdx c l).map (· + 1)

/-- Split on a character (`str.split(":")`). -/
def splitOnCh (c : Char) (l : List Char) : List (List Char) :=
  match l with
  | [] => [[]]
  | d :: rest =>
    let r := splitOnCh c rest
    if d == c then [] :: r
    else
      match r with
      | [] => [[d]]
      | g :: gs => (d :: g) :: gs

/-! ### Calendar arithmetic

`datetime` values are modelled as integer seconds since 1970-01-01T00:00:00
(microseconds are dropped; no claim inspects sub-second precision).  The
civil-date conversions are the standard era-based algorithms; at this point
all divisions act on non-negative operands so Euclidean division coincides
with the truncating division used by the source algorithm. -/

/-- Days since 1970-01-01 for a civil date. -/
def daysFromCivil (y m d : Int) : Int :=
  let y' := y - (if m ≤ 2 then 1 else 0)
  let era := Int.ediv (if 0 ≤ y' then y' else y' - 399) 400
  let yoe := y' - era * 400
  let mp := m + (if 2 < m then -3 else 9)
  let doy := Int.ediv (153 * mp + 2) 5 + d - 1
  let doe := yoe * 365 + Int.ediv yoe 4 - Int.ediv yoe 100 + doy
  era * 146097 + doe - 719468

/-- Civil date (year, month, day) from days since 1970-01-01. -/
def civilFromDays (z : Int) : Int × Int × Int :=
  let z' := z + 719468
  let era := Int.ediv (if 0 ≤ z' then z' else z' - 146096) 146097
  let doe := z' - era * 146097
  let yoe := Int.ediv (doe - Int.ediv doe 1460 + Int.ediv doe 36524 - Int.ediv doe 146096) 365
  let y := yoe + era * 400
  let doy := doe - (365 * yoe + Int.ediv yoe 4 - Int.ediv yoe 100)
  let mp := Int.ediv (5 * doy + 2) 153
  let d := doy - Int.ediv (153 * mp + 2) 5 + 1
  let m := mp + (if mp < 10 then 3 else -9)
  (y + (if m ≤ 2 then 1 else 0), m, d)

def isLeapYear (y : Int) : Bool :=
  (Int.emod y 4 == 0 && Int.emod y 100 != 0) || Int.emod y 400 == 0

def daysInMonth (y m : Int) : Int :=
  if m == 2 then (if isLeapYear y then 29 else 28)
  else if m == 4 || m == 6 || m == 9 || m == 11 then 30
  else 31

/-- Validity check performed by the `datetime` constructor (year 1..9999). -/
def isValidDate (y m d : Int) : Bool :=
  decide (1 ≤ y) && decide (y ≤ 9999) && decide (1 ≤ m) && decide (m ≤ 12) &&
  decide (1 ≤ d) && decide (d ≤ daysInMonth y m)

/-- Seconds since the epoch for midnight of a civil date (`datetime(y, m, d)`). -/
def secondsOfYMD (y m d : Int) : Int := 86400 * daysFromCivil y m d

/-- One day in seconds; `timedelta(days = n)` is `n * daySecs`. -/
def daySecs : Int := 86400

/-- Python `datetime.weekday()`: Monday = 0.  1970-01-01 was a Thursday. -/
def weekdayOf (t : Int) : Int := Int.emod (Int.fdiv t daySecs + 3) 7

/-- The civil year of a timestamp (`datetime.now().year`). -/
def yearOf (t : Int) : Int := (civilFromDays (Int.fdiv t daySecs)).1

def pad2 (n : Nat) : String := if n < 10 then "0" ++ Nat.repr n else Nat.repr n

def pad4 (n : Nat) : String :=
  if n < 10 then "000" ++ Nat.repr n
  else if n < 100 then "00" ++ Nat.repr n
  else if n < 1000 then "0" ++ Nat.repr n
  else Nat.repr n

/-- `strftime("%Y-%m-%d")`. -/
def strftimeDate (t : Int) : String :=
  let (y, m, d) := civilFromDays (Int.fdiv t daySecs)
  pad4 y.toNat ++ "-" ++ pad2 m.toNat ++ "-" ++ pad2 d.toNat

/-- `datetime.utcnow().isoformat() + "Z"` (second granularity; the source
includes microseconds, which no claim inspects). -/
def isoZ (t : Int) : String :=
  let secs := Int.emod t daySecs
  let hh := Int.ediv secs 3600
  let mm := Int.ediv (Int.emod secs 3600) 60
  let ss := Int.emod secs 60
  strftimeDate t ++ "T" ++ pad2 hh.toNat ++ ":" ++ pad2 mm.toNat ++ ":" ++ pad2 ss.toNat ++ "Z"

/-- The two wall clocks the source reads: `datetime.now()` (local) and
`datetime.utcnow()`; a run is modelled with both held fixed. -/
structure Clock where
  nowLocal : Int
  nowUTC : Int
deriving DecidableEq

/-! ### JSON values, `json.loads` and `json.dumps`

Numbers are kept as lexemes (sign, integer digits, fraction digits, exponent
lexeme) rather than floats, which preserves the parser's observable behaviour
(truthiness, type dispatch) without floating-point semantics; the only values
the source serialises are built from strings, integers and lists. -/

inductive Json where
  | null
  | bool (b : Bool)
  | num (neg : Bool) (intPart : String) (frac : String) (expPart : String)
  | numConst (s : String)
  | str (s : String)
  | arr (elems : List Json)
  | obj (fields : List (String × Json))

/-- Dict lookup on a parsed object (`dict.get`); for duplicate keys Python's
parser keeps the last occurrence. -/
def objGet (key : String) (fields : List (String × Json)) : Option Json :=
  fields.foldl (fun acc p => if p.1 == key then some p.2 else acc) none

/-- Python truthiness of a JSON-decoded value. -/
def jsonTruthy : Json → Bool
  | .null => false
  | .bool b => b
  | .str s => !(s == "")
  | .num _ ip fr _ => !(ip.data.all (· == '0') && fr.data.all (· == '0'))
  | .numConst _ => true
  | .arr xs => !xs.isEmpty
  | .obj fs => !fs.isEmpty

/-- JSON whitespace accepted between tokens. -/
def skipJWs : List Char → List Char
  | [] => []
  | c :: l => if c == ' ' || c == '\t' || c == '\n' || c == '\x0d' then skipJWs l else c :: l

def parseHexDigit (c : Char) : Option Nat :=
  if isDigitCh c then some (digitVal c)
  else if decide ('a' ≤ c) && decide (c ≤ 'f') then some (c.toNat - 'a'.toNat + 10)
  else if decide ('A' ≤ c) && decide (c ≤ 'F') then some (c.toNat - 'A'.toNat + 10)
  else none

def parseHex4 : List Char → Option (Nat × List Char)
  | a :: b :: c :: d :: l => do
    let x ← parseHexDigit a
    let y ← parseHexDigit b
    let z ← parseHexDigit c
    let w ← parseHexDigit d
    pure (((x * 16 + y) * 16 + z) * 16 + w, l)
  | _ => none

/-- Body of a JSON string after the opening quote: content characters and the
rest of the input.  Strict mode: unescaped control characters are rejected.
Surrogate pairs are combined; a lone surrogate (which Python would keep) is
not representable as a Lean `Char` and goes through `Char.ofNat`. -/
def parseJStringAux : Nat → List Char → Option (List Char × List Char)
  | 0, _ => none
  | Nat.succ fuel, l =>
    match l with
    | [] => none
    | c :: r =>
      if c == '"' then some ([], r)
      else if c == '\\' then
        match r with
        | [] => none
        | e :: r2 =>
          let simple : Option Char :=
            if e == '"' then some '"'
            else if e == '\\' then some '\\'
            else if e == '/' then some '/'
            else if e == 'b' then some '\x08'
            else if e == 'f' then some '\x0c'
            else if e == 'n' then some '\n'
            else if e == 'r' then some '\x0d'
            else if e == 't' then some '\t'
            else none
          match simple with
          | some ch => (parseJStringAux fuel r2).map (fun p => (ch :: p.1, p.2))
          | none =>
            if e == 'u' then
              match parseHex4 r2 with
              | none => none
              | some (n, r3) =>
                if decide (0xd800 ≤ n) && decide (n < 0xdc00) then
                  match r3 with
                  | '\\' :: 'u' :: r4 =>
                    match parseHex4 r4 with
                    | some (n2, r5) =>
                      if decide (0xdc00 ≤ n2) && decide (n2 < 0xe000) then
                        (parseJStringAux fuel r5).map (fun p =>
                          (Char.ofNat (0x10000 + (n - 0xd800) * 0x400 + (n2 - 0xdc00)) :: p.1, p.2))
                      else (parseJStringAux fuel r3).map (fun p => (Char.ofNat n :: p.1, p.2))
                    | none => (parseJStringAux fuel r3).map (fun p => (Char.ofNat n :: p.1, p.2))
                  | _ => (parseJStringAux fuel r3).map (fun p => (Char.ofNat n :: p.1, p.2))
                else (parseJStringAux fuel r3).map (fun p => (Char.ofNat n :: p.1, p.2))
            else none
      else if c.toNat < 0x20 then none
      else (parseJStringAux fuel r).map (fun p => (c :: p.1, p.2))

def parseJString (l : List Char) : Option (String × List Char) :=
  (parseJStringAux (l.length + 1) l).map (fun p => (String.mk p.1, p.2))

/-- Greedily take characters satisfying a predicate. -/
def munchWhile (p : Char → Bool) : List Char → List Char × List Char
  | [] => ([], [])
  | c :: l =>
    if p c then
      let r := munchWhile p l
      (c :: r.1, r.2)
    else ([], c :: l)

/-- Lex a JSON number per the grammar `-?(0|[1-9]\d*)(\.\d+)?([eE][-+]?\d+)?`. -/
def parseJNumber (l : List Char) : Option (Json × List Char) :=
  let (neg, l1) := match l with
    | '-' :: r => (true, r)
    | _ => (false, l)
  match l1 with
  | [] => none
  | c :: r =>
    if c == '0' then
      let (fr, ex, rest) := Id.run do
        let (fr, r2) := match r with
          | '.' :: r2 =>
            let m := munchWhile isDigitCh r2
            if m.1.isEmpty then ("", '.' :: r2) else (String.mk m.1, m.2)
          | _ => ("", r)
        let (ex, r3) := match r2 with
          | e :: s :: r3 =>
            if (e == 'e' || e == 'E') then
              if s == '+' || s == '-' then
                let m := munchWhile isDigitCh r3
                if m.1.isEmpty then ("", e :: s :: r3)
                else (String.mk (e :: s :: m.1), m.2)
              else if isDigitCh s then
                let m := munchWhile isDigitCh (s :: r3)
                (String.mk (e :: m.1), m.2)
              else ("", e :: s :: r3)
            else ("", e :: s :: r3)
          | r3 => ("", r3)
        pure (fr, ex, r3)
      some (Json.num neg "0" fr ex, rest)
    else if isDigitCh c then
      let m := munchWhile isDigitCh (c :: r)
      let (fr, ex, rest) := Id.run do
        let (fr, r2) := match m.2 with
          | '.' :: r2 =>
            let m2 := munchWhile isDigitCh r2
            if m2.1.isEmpty then ("", '.' :: r2) else (String.mk m2.1, m2.2)
          | r2 => ("", r2)
        let (ex, r3) := match r2 with
          | e :: s :: r3 =>
            if (e == 'e' || e == 'E') then
              if s == '+' || s == '-' then
                let m2 := munchWhile isDigitCh r3
                if m2.1.isEmpty then ("", e :: s :: r3)
                else (String.mk (e :: s :: m2.1), m2.2)
              else if isDigitCh s then
                let m2 := munchWhile isDigitCh (s :: r3)
                (String.mk (e :: m2.1), m2.2)
              else ("", e :: s :: r3)
            else ("", e :: s :: r3)
          | r3 => ("", r3)
        pure (fr, ex, r3)
      some (Json.num neg (String.mk m.1) fr ex, rest)
    else none

mutual

/-- Parse one JSON value starting at the head of the input (the callers skip
whitespace).  `NaN`, `Infinity` and `-Infinity` are accepted, as by Python's
default `loads`. -/
def parseJValue : Nat → List Char → Option (Json × List Char)
  | 0, _ => none
  | Nat.succ fuel, l =>
    match l with
    | [] => none
    | c :: rest =>
      if c == '"' then (parseJString rest).map (fun p => (Json.str p.1, p.2))
      else if c == lbrace then parseJObjItems fuel (skipJWs rest) true []
      else if c == '[' then parseJArrItems fuel (skipJWs rest) true []
      else if startsWithL ['t', 'r', 'u', 'e'] l then some (Json.bool true, l.drop 4)
      else if startsWithL ['f', 'a', 'l', 's', 'e'] l then some (Json.bool false, l.drop 5)
      else if startsWithL ['n', 'u', 'l', 'l'] l then some (Json.null, l.drop 4)
      else if startsWithL ['N', 'a', 'N'] l then some (Json.numConst "NaN", l.drop 3)
      else if startsWithL ['I', 'n', 'f', 'i', 'n', 'i', 't', 'y'] l then
        some (Json.numConst "Infinity", l.drop 8)
      else if startsWithL ['-', 'I', 'n', 'f', 'i', 'n', 'i', 't', 'y'] l then
        some (Json.numConst "-Infinity", l.drop 9)
      else parseJNumber l

/-- Members of an object after the opening brace (whitespace already skipped);
`first` is true before the first member, where a closing brace is accepted. -/
def parseJObjItems : Nat → List Char → Bool → List (String × Json) → Option (Json × List Char)
  | 0, _, _, _ => none
  | Nat.succ fuel, l, first, acc =>
    match l with
    | [] => none
    | c :: rest =>
      if first && c == rbrace then some (Json.obj acc, rest)
      else if c == '"' then
        match parseJString rest with
        | none => none
        | some (key, r1) =>
          match skipJWs r1 with
          | ':' :: r2 =>
            match parseJValue fuel (skipJWs r2) with
            | none => none
            | some (v, r3) =>
              match skipJWs r3 with
              | ',' :: r4 => parseJObjItems fuel (skipJWs r4) false (acc ++ [(key, v)])
              | d :: r4 =>
                if d == rbrace then some (Json.obj (acc ++ [(key, v)]), r4) else none
              | [] => none
          | _ => none
      else none

/-- Elements of an array after the opening bracket. -/
def parseJArrItems : Nat → List Char → Bool → List Json → Option (Json × List Char)
  | 0, _, _, _ => none
  | Nat.succ fuel, l, first, acc =>
    match l with
    | [] => none
    | c :: _rest =>
      if first && c == ']' then some (Json.arr acc, l.drop 1)
      else
        match parseJValue fuel l with
        | none => none
        | some (v, r1) =>
          match skipJWs r1 with
          | ',' :: r2 => parseJArrItems fuel (skipJWs r2) false (acc ++ [v])
          | ']' :: r2 => some (Json.arr (acc ++ [v]), r2)
          | _ => none

end

/-- Model of `json.loads`: skip leading whitespace, parse one value, allow
only trailing whitespace (`none` corresponds to `json.JSONDecodeError`). -/
def jsonLoads (s : String) : Option Json :=
  match parseJValue (2 * s.data.length + 4) (skipJWs s.data) with
  | some (v, rest) => if (skipJWs rest).isEmpty then some v else none
  | none => none

/-! #### `json.dumps` (default `ensure_ascii=True`) -/

def hexDigitCh (n : Nat) : Char :=
  if n < 10 then Char.ofNat ('0'.toNat + n) else Char.ofNat ('a'.toNat + n - 10)

def uEscape (n : Nat) : List Char :=
  ['\\', 'u', hexDigitCh (n / 4096 % 16), hexDigitCh (n / 256 % 16),
   hexDigitCh (n / 16 % 16), hexDigitCh (n % 16)]

/-- Escape one character as Python's ASCII JSON encoder does. -/
def pyJsonEscapeChar (c : Char) : List Char :=
  if c == '"' then ['\\', '"']
  else if c == '\\' then ['\\', '\\']
  else if c == '\x08' then ['\\', 'b']
  else if c == '\x0c' then ['\\', 'f']
  else if c == '\n' then ['\\', 'n']
  else if c == '\x0d' then ['\\', 'r']
  else if c == '\t' then ['\\', 't']
  else if c.toNat < 0x20 then uEscape c.toNat
  else if c.toNat < 0x7f then [c]
  else if c.toNat < 0x10000 then uEscape c.toNat
  else
    uEscape (0xd800 + (c.toNat - 0x10000) / 0x400) ++
    uEscape (0xdc00 + (c.toNat - 0x10000) % 0x400)

/-- A JSON string literal. -/
def dumpsStr (s : String) : String :=
  "\"" ++ String.mk (s.data.map pyJsonEscapeChar).flatten ++ "\""

def dumpsNum (neg : Bool) (ip fr ex : String) : String :=
  (if neg then "-" else "") ++ ip ++ (if fr == "" then "" else "." ++ fr) ++ ex

mutual

/-- Compact `json.dumps` with the default separators `", "` and `": "`. -/
def dumpsJson : Json → String
  | .null => "null"
  | .bool b => if b then "true" else "false"
  | .num neg ip fr ex => dumpsNum neg ip fr ex
  | .numConst s => s
  | .str s => dumpsStr s
  | .arr xs => "[" ++ dumpsArr xs ++ "]"
  | .obj fs => String.mk [lbrace] ++ dumpsObj fs ++ String.mk [rbrace]

def dumpsArr : List Json → String
  | [] => ""
  | [x] => dumpsJson x
  | x :: y :: xs => dumpsJson x ++ ", " ++ dumpsArr (y :: xs)

def dumpsObj : List (String × Json) → String
  | [] => ""
  | [(k, v)] => dumpsStr k ++ ": " ++ dumpsJson v
  | (k, v) :: f :: fs => dumpsStr k ++ ": " ++ dumpsJson v ++ ", " ++ dumpsObj (f :: fs)

end

def indSpaces (lvl : Nat) : String := String.mk (List.replicate (2 * lvl) ' ')

mutual

/-- `json.dumps(..., indent=2)` (separators become `","` + newline and `": "`). -/
def dumpsJsonInd (lvl : Nat) : Json → String
  | .null => "null"
  | .bool b => if b then "true" else "false"
  | .num neg ip fr ex => dumpsNum neg ip fr ex
  | .numConst s => s
  | .str s => dumpsStr s
  | .arr [] => "[]"
  | .arr (x :: xs) =>
    "[\n" ++ dumpsArrInd (lvl + 1) (x :: xs) ++ "\n" ++ indSpaces lvl ++ "]"
  | .obj [] => String.mk [lbrace, rbrace]
  | .obj (f :: fs) =>
    String.mk [lbrace] ++ "\n" ++ dumpsObjInd (lvl + 1) (f :: fs) ++ "\n" ++
      indSpaces lvl ++ String.mk [rbrace]

def dumpsArrInd (lvl : Nat) : List Json → String
  | [] => ""
  | [x] => indSpaces lvl ++ dumpsJsonInd lvl x
  | x :: y :: xs =>
    indSpaces lvl ++ dumpsJsonInd lvl x ++ ",\n" ++ dumpsArrInd lvl (y :: xs)

def dumpsObjInd (lvl : Nat) : List (String × Json) → String
  | [] => ""
  | [(k, v)] => indSpaces lvl ++ dumpsStr k ++ ": " ++ dumpsJsonInd lvl v
  | (k, v) :: f :: fs =>
    indSpaces lvl ++ dumpsStr k ++ ": " ++ dumpsJsonInd lvl v ++ ",\n" ++
      dumpsObjInd lvl (f :: fs)

end

/-- A Python integer as a JSON value. -/
def intToJson (i : Int) : Json :=
  if i < 0 then Json.num true (Nat.repr (-i).toNat) "" "" else Json.num false (Nat.repr i.toNat) "" ""

/-- Association-list lookup (first hit; models access into a Python dict,
whose keys are unique). -/
def lookupA {α : Type} (k : String) : List (String × α) → Option α
  | [] => none
  | p :: l => if p.1 == k then some p.2 else lookupA k l

/-! ### `datetime.strptime(s, "%Y-%m-%d")`

CPython's `%Y` directive matches exactly four digits while `%m` and `%d`
match one or two (`1[0-2]|0[1-9]|[1-9]` and `3[01]|[12]\d|0[1-9]|[1-9]`),
the whole string must be consumed, and the `datetime` constructor then
validates the calendar date. -/

def parseDayEnd (l : List Char) : Option Nat :=
  match l with
  | [a, b] =>
    if a == '3' && (b == '0' || b == '1') then some (natOfDigits [a, b])
    else if (a == '1' || a == '2') && isDigitCh b then some (natOfDigits [a, b])
    else if a == '0' && isDigitCh b && b != '0' then some (natOfDigits [a, b])
    else none
  | [a] => if isDigitCh a && a != '0' then some (digitVal a) else none
  | _ => none

def parseMonthDayEnd (l : List Char) : Option (Nat × Nat) :=
  let two : Option (Nat × Nat) :=
    match l with
    | a :: b :: r =>
      let v2 : Option Nat :=
        if a == '1' && (b == '0' || b == '1' || b == '2') then some (natOfDigits [a, b])
        else if a == '0' && isDigitCh b && b != '0' then some (natOfDigits [a, b])
        else none
      match v2 with
      | some m =>
        match r with
        | '-' :: r2 => (parseDayEnd r2).map (fun d => (m, d))
        | _ => none
      | none => none
    | _ => none
  match two with
  | some md => some md
  | none =>
    match l with
    | a :: '-' :: r2 =>
      if isDigitCh a && a != '0' then (parseDayEnd r2).map (fun d => (digitVal a, d))
      else none
    | _ => none

def strptimeYMD (s : String) : Option Int :=
  match s.data with
  | a :: b :: c :: d :: '-' :: r =>
    if isDigitCh a && isDigitCh b && isDigitCh c && isDigitCh d then
      match parseMonthDayEnd r with
      | some (m, dd) =>
        let y := natOfDigits [a, b, c, d]
        if isValidDate (y : Int) (m : Int) (dd : Int) then some (secondsOfYMD y m dd) else none
      | none => none
    else none
  | _ => none

/-! ### `datetime.fromisoformat`

Modelled after the CPython (≤ 3.10) grammar: `YYYY-MM-DD` optionally followed
by one separator character and `HH[:MM[:SS[.fff or .ffffff]]]`, optionally
followed by an offset `±HH:MM[:SS[.ffffff]]`.  The fractional part and the
offset value are dropped: the source immediately strips the timezone with
`replace(tzinfo=None)`, keeping the wall-clock reading. -/

def parse2Digits : List Char → Option (Nat × List Char)
  | a :: b :: l => if isDigitCh a && isDigitCh b then some (natOfDigits [a, b], l) else none
  | _ => none

def parseIsoFrac : List Char → Option (List Char)
  | '.' :: r =>
    let m := munchWhile isDigitCh r
    if m.1.length == 3 || m.1.length == 6 then some m.2 else none
  | l => some l

/-- Time-of-day part: returns seconds into the day and the rest of the input. -/
def parseIsoTime (l : List Char) : Option (Nat × List Char) :=
  match parse2Digits l with
  | none => none
  | some (hh, r) =>
    if 23 < hh then none
    else
      match r with
      | ':' :: r2 =>
        match parse2Digits r2 with
        | none => none
        | some (mi, r3) =>
          if 59 < mi then none
          else
            match r3 with
            | ':' :: r4 =>
              match parse2Digits r4 with
              | none => none
              | some (ss, r5) =>
                if 59 < ss then none
                else
                  match parseIsoFrac r5 with
                  | some r6 => some (hh * 3600 + mi * 60 + ss, r6)
                  | none => none
            | r4 => some (hh * 3600 + mi * 60, r4)
      | r2 => some (hh * 3600, r2)

/-- Offset part `±HH:MM[:SS[.ffffff]]`; the value is parsed for validity
(total strictly below 24 hours, as `timezone` requires) and then ignored. -/
def parseIsoOffsetEnd (l : List Char) : Bool :=
  match l with
  | s :: r =>
    if s == '+' || s == '-' then
      match parse2Digits r with
      | some (oh, ':' :: r2) =>
        match parse2Digits r2 with
        | some (om, r3) =>
          let secPart : Option (Nat × List Char) :=
            match r3 with
            | ':' :: r4 =>
              match parse2Digits r4 with
              | some (os, r5) =>
                match parseIsoFrac r5 with
                | some r6 => some (os, r6)
                | none => none
              | none => none
            | _ => some (0, r3)
          match secPart with
          | some (os, r6) => r6.isEmpty && decide (oh * 3600 + om * 60 + os < 86400)
          | none => false
        | none => false
      | _ => false
    else false
  | [] => true

def pyFromIso (s : String) : Option Int :=
  match s.data with
  | a :: b :: c :: d :: '-' :: r1 =>
    if isDigitCh a && isDigitCh b && isDigitCh c && isDigitCh d then
      match parse2Digits r1 with
      | some (mo, '-' :: r2) =>
        match parse2Digits r2 with
        | some (dd, r3) =>
          let y := natOfDigits [a, b, c, d]
          if isValidDate (y : Int) (mo : Int) (dd : Int) then
            let base := secondsOfYMD y mo dd
            match r3 with
            | [] => some base
            | _sep :: r4 =>
              match parseIsoTime r4 with
              | some (tod, r5) =>
                if parseIsoOffsetEnd r5 then some (base + (tod : Int)) else none
              | none => none
          else none
        | none => none
      | _ => none
    else none
  | _ => none

/-! ### Free-text deadline mining (`extract_deadline_from_text`)

The three regex searches are embedded as leftmost-match scans over the
lowercased text, reproducing the patterns' backtracking behaviour. -/

/-- Capture `(\d{4}-\d{2}-\d{2})` at the current position. -/
def captureDateAt (l : List Char) : Option (List Char) :=
  match l with
  | a :: b :: c :: d :: '-' :: e :: f :: '-' :: g :: h :: _ =>
    if isDigitCh a && isDigitCh b && isDigitCh c && isDigitCh d &&
       isDigitCh e && isDigitCh f && isDigitCh g && isDigitCh h then
      some [a, b, c, d, '-', e, f, '-', g, h]
    else none
  | _ => none

/-- Try `(?:deadline|due)[:\s]+(\d{4}-\d{2}-\d{2})` at the current position. -/
def tryP1At (l : List Char) : Option String :=
  let afterKw : Option (List Char) :=
    if startsWithL "deadline".data l then some (l.drop 8)
    else if startsWithL "due".data l then some (l.drop 3)
    else none
  match afterKw with
  | none => none
  | some r =>
    let m := munchWhile (fun c => c == ':' || isSpaceCh c) r
    if m.1.isEmpty then none else (captureDateAt m.2).map String.mk

def searchP1 : List Char → Option String
  | [] => none
  | c :: tl =>
    match tryP1At (c :: tl) with
    | some r => some r
    | none => searchP1 tl

/-- Month-name alternatives in the order the regex tries them
(`jan(?:uary)?` greedily prefers the long form). -/
def monthAlts : List (List Char × Nat) :=
  [("january".data, 1), ("jan".data, 1), ("february".data, 2), ("feb".data, 2),
   ("march".data, 3), ("mar".data, 3), ("april".data, 4), ("apr".data, 4),
   ("may".data, 5), ("june".data, 6), ("jun".data, 6), ("july".data, 7),
   ("jul".data, 7), ("august".data, 8), ("aug".data, 8), ("september".data, 9),
   ("sep".data, 9), ("october".data, 10), ("oct".data, 10), ("november".data, 11),
   ("nov".data, 11), ("december".data, 12), ("dec".data, 12)]

/-- After the month name: `\s+(\d{1,2})(?:[,\s]+(\d{4}))?`. -/
def afterMonth (l : List Char) : Option (Nat × Option Nat) :=
  let sp := munchWhile isSpaceCh l
  if sp.1.isEmpty then none
  else
    match sp.2 with
    | a :: r =>
      if !isDigitCh a then none
      else
        let dayPair : List Char × List Char :=
          match r with
          | b :: r2 => if isDigitCh b then ([a, b], r2) else ([a], b :: r2)
          | [] => ([a], [])
        let yr : Option Nat :=
          let m2 := munchWhile (fun c => c == ',' || isSpaceCh c) dayPair.2
          if m2.1.isEmpty then none
          else
            match m2.2 with
            | p :: q :: s :: t :: _ =>
              if isDigitCh p && isDigitCh q && isDigitCh s && isDigitCh t then
                some (natOfDigits [p, q, s, t])
              else none
            | _ => none
        some (natOfDigits dayPair.1, yr)
    | [] => none

def tryMonths : List (List Char × Nat) → List Char → Option (Nat × Nat × Option Nat)
  | [], _ => none
  | (pat, mnum) :: alts, l =>
    if startsWithL pat l then
      match afterMonth (l.drop pat.length) with
      | some (d, y) => some (mnum, d, y)
      | none => tryMonths alts l
    else tryMonths alts l

/-- Try `(?:by|due|before)\s+<month>\s+(\d{1,2})(?:[,\s]+(\d{4}))?`. -/
def tryP2At (l : List Char) : Option (Nat × Nat × Option Nat) :=
  let kw : Option (List Char) :=
    if startsWithL "by".data l then some (l.drop 2)
    else if startsWithL "due".data l then some (l.drop 3)
    else if startsWithL "before".data l then some (l.drop 6)
    else none
  match kw with
  | none => none
  | some r =>
    let sp := munchWhile isSpaceCh r
    if sp.1.isEmpty then none else tryMonths monthAlts sp.2

def searchP2 : List Char → Option (Nat × Nat × Option Nat)
  | [] => none
  | c :: tl =>
    match tryP2At (c :: tl) with
    | some r => some r
    | none => searchP2 tl

/-- Try `in\s+(\d+)\s+(day|week|month)s?`; the unit is coded 0/1/2. -/
def tryP3At (l : List Char) : Option (Nat × Nat) :=
  if startsWithL "in".data l then
    let sp := munchWhile isSpaceCh (l.drop 2)
    if sp.1.isEmpty then none
    else
      let dg := munchWhile isDigitCh sp.2
      if dg.1.isEmpty then none
      else
        let sp2 := munchWhile isSpaceCh dg.2
        if sp2.1.isEmpty then none
        else
          if startsWithL "day".data sp2.2 then some (natOfDigits dg.1, 0)
          else if startsWithL "week".data sp2.2 then some (natOfDigits dg.1, 1)
          else if startsWithL "month".data sp2.2 then some (natOfDigits dg.1, 2)
          else none
  else none

def searchP3 : List Char → Option (Nat × Nat)
  | [] => none
  | c :: tl =>
    match tryP3At (c :: tl) with
    | some r => some r
    | none => searchP3 tl

/-- `extract_deadline_from_text`: the three patterns in order; a leftmost
match whose date fails validation falls through to the next pattern. -/
def extractDeadlineFromText (now : Int) (text : String) : Option Int :=
  if text == "" then none
  else
    let tl := (strLower text).data
    let p1 : Option Int :=
      match searchP1 tl with
      | some ds => strptimeYMD ds
      | none => none
    match p1 with
    | some t => some t
    | none =>
      let p2 : Option Int :=
        match searchP2 tl with
        | some (m, d, yOpt) =>
          let y : Int := match yOpt with
            | some yv => (yv : Int)
            | none => yearOf now
          if isValidDate y (m : Int) (d : Int) then some (86400 * daysFromCivil y m d) else none
        | none => none
      match p2 with
      | some t => some t
      | none =>
        match searchP3 tl with
        | some (num, unit) =>
          if unit == 0 then some (now + (num : Int) * daySecs)
          else if unit == 1 then some (now + (num : Int) * 7 * daySecs)
          else some (now + (num : Int) * 30 * daySecs)
        | none => none

/-- `extract_deadline_from_labels`: per-label checks in order; the first
label that yields a date wins, labels are scanned in their original order. -/
def extractFromLabel (now : Int) (label : String) : Option Int :=
  let ls := strLower label
  let d1 : Option Int :=
    if pyStartsWith "deadline:" ls then
      match (splitOnCh ':' ls.data).drop 1 with
      | part :: _ => strptimeYMD (String.mk part)
      | [] => none
    else none
  match d1 with
  | some t => some t
  | none =>
    let d2 : Option Int :=
      if pyStartsWith "due-" ls then strptimeYMD (String.mk (ls.data.drop 4)) else none
    match d2 with
    | some t => some t
    | none =>
      if ls == "this-week" then some (now + (7 - weekdayOf now) * daySecs)
      else if ls == "next-week" then some (now + (14 - weekdayOf now) * daySecs)
      else none

def extractDeadlineFromLabels (now : Int) (labels : List String) : Option Int :=
  labels.foldl (fun acc lb =>
    match acc with
    | some t => some t
    | none => extractFromLabel now lb) none

/-! ### Task records and configuration -/

/-- Configured default fallback (`DEFAULT_DEADLINE_DAYS`). -/
def DEFAULT_DEADLINE_DAYS : Int := 7

def GITHUB_REPO : String := "ShawnOwen/stacks-ranking-priorities"

/-- A Python value that can flow through an event-id slot or a command
argument vector: a string, or a JSON-decoded list.  These are exactly the
truthy values `event_data.get("id")` can hold that survive the success log's
slice `event_id[:20]` — a list slices fine and is returned unchanged, while
a truthy number, boolean or dict raises `TypeError` there and never reaches
an id slot. -/
inductive PyVal where
  | str (s : String)
  | arr (l : List Json)

/-- Python truthiness of such a value (non-empty string, non-empty list). -/
def PyVal.truthy : PyVal → Bool
  | .str s => !(s == "")
  | .arr l => !l.isEmpty

/-- Equality of such a value against a string literal, as in
`event_id != "created_no_id"`: a list never equals a string. -/
def PyVal.beqStr : PyVal → String → Bool
  | .str s, t => s == t
  | .arr _, _ => false

def pyValJson : PyVal → Json
  | .str s => Json.str s
  | .arr l => Json.arr l

/-- The nested `sync` object of a task record's `meta.json`; the event id
written back is whatever value the create returned. -/
structure SyncMeta where
  github_issue_number : Option Int
  gdrive_folder_url : Option String
  calendar_event_id : Option PyVal
  calendar_synced_at : Option String

def emptySyncMeta : SyncMeta := ⟨none, none, none, none⟩

/-- A parsed `meta.json` object.  `none` models an absent field; the raw
`priority` value is carried as its `str()` rendering, which is all
`normalize_priority` observes. -/
structure Meta where
  name : Option String
  priority : Option String
  status : Option String
  deadline : Option String
  due_date : Option String
  labels : Option (List String)
  description : Option String
  notes : Option String
  sync : Option SyncMeta

/-- A thread's `meta.json` document: unreadable JSON, valid JSON whose top
level is not an object (so that attribute access on it raises), or an object. -/
inductive Doc where
  | malformed
  | nonObj
  | obj (m : Meta)

/-- Is the looked-up document present but unreadable? -/
def isMalformedDoc : Option Doc → Bool
  | some Doc.malformed => true
  | _ => false

/-- `normalize_priority`. -/
def normalizePriority (p : Option String) : String :=
  match p with
  | none => "P4"
  | some s =>
    let u := strUpper s
    if u == "P1" || u == "1" || u == "PRIORITY-1" then "P1"
    else if u == "P2" || u == "2" || u == "PRIORITY-2" then "P2"
    else if u == "P3" || u == "3" || u == "PRIORITY-3" then "P3"
    else "P4"

/-- `get_priority_emoji` (the source always calls it on a normalized rank). -/
def getPriorityEmoji (p : String) : String :=
  if p == "P1" || p == "1" || p == "priority-1" then "🔴"
  else if p == "P2" || p == "2" || p == "priority-2" then "🟠"
  else if p == "P3" || p == "3" || p == "priority-3" then "🟡"
  else "⚪"

/-- `PRIORITY_COLORS` with the `.get(priority, "8")` default. -/
def priorityColor (p : String) : String :=
  if p == "P1" then "11"
  else if p == "P2" then "6"
  else if p == "P3" then "5"
  else if p == "P4" then "8"
  else "8"

/-- `priority_days` table of `get_deadline` step 6. -/
def priorityDaysTable : List (String × Int) := [("P1", 3), ("P2", 7), ("P3", 14), ("P4", 30)]

/-! ### `get_deadline`: the numbered strategies, then the assembled cascade -/

/-- Step 1: explicit `deadline` field — ISO parse, else free-text mining. -/
def deadlineS1 (m : Meta) (clk : Clock) : Option Int :=
  match m.deadline with
  | some d =>
    match pyFromIso (replaceChar 'Z' "+00:00".data d) with
    | some t => some t
    | none => extractDeadlineFromText clk.nowLocal d
  | none => none

/-- Step 2: `due_date` field parsed as `%Y-%m-%d`. -/
def deadlineS2 (m : Meta) : Option Int :=
  match m.due_date with
  | some d => strptimeYMD d
  | none => none

/-- Step 3: labels. -/
def deadlineS3 (m : Meta) (clk : Clock) : Option Int :=
  extractDeadlineFromLabels clk.nowLocal (m.labels.getD [])

/-- Step 4: description text. -/
def deadlineS4 (m : Meta) (clk : Clock) : Option Int :=
  extractDeadlineFromText clk.nowLocal (m.description.getD "")

/-- Step 5: notes text. -/
def deadlineS5 (m : Meta) (clk : Clock) : Option Int :=
  extractDeadlineFromText clk.nowLocal (m.notes.getD "")

/-- `get_deadline`: first strategy that succeeds wins; step 6 falls back to
`now + timedelta(days=priority_days.get(priority, default_days))`. -/
def getDeadline (m : Meta) (defaultDays : Int) (clk : Clock) : Int :=
  match deadlineS1 m clk with
  | some t => t
  | none =>
    match deadlineS2 m with
    | some t => t
    | none =>
      match deadlineS3 m clk with
      | some t => t
      | none =>
        match deadlineS4 m clk with
        | some t => t
        | none =>
          match deadlineS5 m clk with
          | some t => t
          | none =>
            let priority := normalizePriority m.priority
            clk.nowLocal + daySecs * ((lookupA priority priorityDaysTable).getD defaultDays)

/-! ### Event content builders -/

def joinWithNL : List String → String
  | [] => ""
  | [x] => x
  | x :: y :: l => x ++ "\n" ++ joinWithNL (y :: l)

def issueNumberOf (m : Meta) : Option Int :=
  (m.sync.getD emptySyncMeta).github_issue_number

/-- Python truthiness of the optional issue number. -/
def truthyInt : Option Int → Bool
  | none => false
  | some i => !(i == 0)

/-- `build_event_title`. -/
def buildEventTitle (threadId : String) (m : Meta) : String :=
  let name := m.name.getD threadId
  let priority := normalizePriority m.priority
  let emoji := getPriorityEmoji priority
  match issueNumberOf m with
  | some i =>
    if !(i == 0) then emoji ++ " " ++ priority ++ ": #" ++ toString i ++ " - " ++ name
    else emoji ++ " " ++ priority ++ ": " ++ name
  | none => emoji ++ " " ++ priority ++ ": " ++ name

/-- `build_event_description`. -/
def buildEventDescription (threadId : String) (m : Meta) (clk : Clock) : String :=
  let name := m.name.getD threadId
  let sync := m.sync.getD emptySyncMeta
  let issue := sync.github_issue_number
  let parts1 : List String :=
    ["📋 Task Thread: " ++ name,
     "Priority: " ++ normalizePriority m.priority,
     "",
     "🔗 Links:"]
  let parts2 :=
    match issue with
    | some i =>
      if !(i == 0) then
        parts1 ++ ["• GitHub: https://github.com/" ++ GITHUB_REPO ++ "/issues/" ++ toString i]
      else parts1
    | none => parts1
  let parts3 :=
    match sync.gdrive_folder_url with
    | some u => if !(u == "") then parts2 ++ ["• GDrive: " ++ u] else parts2
    | none => parts2
  let sessionTail : String :=
    match issue with
    | some i => if !(i == 0) then toString i else threadId
    | none => threadId
  let parts4 := parts3 ++
    ["• Thread: /equabot/threads/" ++ threadId ++ "/",
     "• Session: agent:main:task-thread:" ++ sessionTail]
  let dl := getDeadline m DEFAULT_DEADLINE_DAYS clk
  let parts5 := parts4 ++
    ["", "📅 Deadline: " ++ strftimeDate dl, "📊 Status: " ++ m.status.getD "active"]
  joinWithNL parts5

/-! ### Fingerprint (`get_thread_hash`) -/

def optStrJson : Option String → Json
  | none => Json.null
  | some s => Json.str s

/-- Code-point lexicographic `≤` on strings, as Python compares them. -/
def strLeL : List Char → List Char → Bool
  | [], _ => true
  | _ :: _, [] => false
  | a :: as, b :: bs =>
    if a.toNat < b.toNat then true
    else if b.toNat < a.toNat then false
    else strLeL as bs

def strLe (a b : String) : Bool := strLeL a.data b.data

/-- `sorted()` on strings (code-point lexicographic, stable). -/
def sortStrings (l : List String) : List String :=
  List.insertionSort (fun a b => strLe a b = true) l

/-- `get_thread_hash`: `json.dumps(key_fields, sort_keys=True)`; the five keys
are listed in their sorted order. -/
def getThreadHash (m : Meta) : String :=
  dumpsJson (Json.obj
    [("deadline", optStrJson m.deadline),
     ("labels", Json.arr ((sortStrings (m.labels.getD [])).map Json.str)),
     ("name", optStrJson m.name),
     ("priority", Json.str (normalizePriority m.priority)),
     ("status", optStrJson m.status)])

/-! ### Calendar gateway -/

/-- The observable fate of one `subprocess.run` invocation: completion with an
exit code and captured output, the 30-second timeout, or some other raised
invocation error. -/
inductive Outcome where
  | completed (rc : Int) (stdout : String) (stderr : String)
  | timedOut
  | raised (msg : String)
deriving DecidableEq

/-- An oracle giving the outcome of the i-th gateway invocation attempt of a
run, also shown the argument vector handed to `subprocess.run`.  An argument
vector holding a list (a non-string event id) makes `subprocess.run` itself
raise `TypeError`; that attempt's outcome is the corresponding `.raised`
failure, which `run_calendar_command` catches like any other. -/
def GOracle := Nat → List PyVal → Outcome

/-- `run_calendar_command`: every outcome is converted to a
`(success, combined-output-or-diagnostic)` pair; the `except` clauses turn
a timeout or any other invocation error into a failure result. -/
def runCalendarCommand : Outcome → Bool × String
  | .completed rc out err => (rc == 0, out ++ err)
  | .timedOut => (false, "Command timed out")
  | .raised msg => (false, msg)

/-- Python exceptions that can escape the per-task step in this model. -/
inductive PyErr where
  | attributeError
  | typeError
deriving DecidableEq

/-- The suffix of the combined output starting at the first brace
(`output.find("{")` and the slice `output[json_start:]`). -/
def braceSuffix (output : String) : Option String :=
  (findCharIdx lbrace output.data).map (fun i => String.mk (output.data.drop i))

/-- The success log's slice `event_id[:20]` followed by `return event_id`,
keyed by the truthy `id` value found: a string or a list slices fine and is
returned as-is; a number, boolean or object raises `TypeError` from the
slice, which nothing catches. -/
def idResult : Json → Except PyErr PyVal
  | Json.str s => Except.ok (PyVal.str s)
  | Json.arr l => Except.ok (PyVal.arr l)
  | _ => Except.error PyErr.typeError

/-- Identifier extraction from a successful create's combined output: find the
first brace, `json.loads` the suffix, read `id`; a truthy `id` reaches the
success log's slice (`idResult`).  A suffix that parses cannot be a
non-object since it starts with a brace. -/
def extractEventId (output : String) : Except PyErr PyVal :=
  match braceSuffix output with
  | some suffix =>
    match jsonLoads suffix with
    | some (Json.obj fields) =>
      match objGet "id" fields with
      | some v =>
        if jsonTruthy v then idResult v
        else Except.ok (PyVal.str "created_no_id")
      | none => Except.ok (PyVal.str "created_no_id")
    | some _ => Except.ok (PyVal.str "created_no_id")
    | none => Except.ok (PyVal.str "created_no_id")
  | none => Except.ok (PyVal.str "created_no_id")

/-- Argument vector of the create invocation. -/
def createArgs (threadId : String) (m : Meta) (clk : Clock) : List PyVal :=
  let title := buildEventTitle threadId m
  let description := buildEventDescription threadId m clk
  let dl := getDeadline m DEFAULT_DEADLINE_DAYS clk
  let startStr := strftimeDate dl ++ "T09:00:00"
  let endStr := strftimeDate dl ++ "T10:00:00"
  let colorId := priorityColor (normalizePriority m.priority)
  [PyVal.str "create", PyVal.str title, PyVal.str "--start", PyVal.str startStr,
   PyVal.str "--end", PyVal.str endStr, PyVal.str "--description", PyVal.str description,
   PyVal.str "--color", PyVal.str colorId]

/-- `create_calendar_event`: returns the event id (or the sentinel) on
success, `none` on failure; the second component is the advanced call
counter. -/
def createCalendarEvent (g : GOracle) (k : Nat) (threadId : String) (m : Meta) (clk : Clock) :
    Except PyErr (Option PyVal × Nat) :=
  let res := runCalendarCommand (g k (createArgs threadId m clk))
  if res.1 then
    match extractEventId res.2 with
    | Except.ok eid => Except.ok (some eid, k + 1)
    | Except.error e => Except.error e
  else Except.ok (none, k + 1)

/-- Argument vector of the update invocation (the event id is passed as the
value it is, string or list). -/
def updateArgs (eventId : PyVal) (threadId : String) (m : Meta) (clk : Clock) : List PyVal :=
  let title := buildEventTitle threadId m
  let description := buildEventDescription threadId m clk
  let dl := getDeadline m DEFAULT_DEADLINE_DAYS clk
  let startStr := strftimeDate dl ++ "T09:00:00"
  let endStr := strftimeDate dl ++ "T10:00:00"
  let colorId := priorityColor (normalizePriority m.priority)
  [PyVal.str "update", eventId, PyVal.str "--title", PyVal.str title,
   PyVal.str "--start", PyVal.str startStr, PyVal.str "--end", PyVal.str endStr,
   PyVal.str "--description", PyVal.str description, PyVal.str "--color", PyVal.str colorId]

/-- `update_calendar_event`. -/
def updateCalendarEvent (g : GOracle) (k : Nat) (eventId : PyVal) (threadId : String) (m : Meta)
    (clk : Clock) : Bool × Nat :=
  ((runCalendarCommand (g k (updateArgs eventId threadId m clk))).1, k + 1)

/-- `delete_calendar_event`. -/
def deleteCalendarEvent (g : GOracle) (k : Nat) (eventId : PyVal) (_threadName : String) :
    Bool × Nat :=
  ((runCalendarCommand (g k [PyVal.str "delete", eventId])).1, k + 1)

/-! ### Sync state store -/

/-- One tracked entry of `state["synced_threads"]`; the event id holds
whatever value the create returned (a string, the sentinel, or a list). -/
structure SyncedInfo where
  event_id : Option PyVal
  synced_at : String
  issue_number : Option Int
  hash : String
  priority : String
  updated_at : Option String

/-- `state["sync_stats"]` (cumulative lifetime counters). -/
structure CumStats where
  created : Nat
  updated : Nat
  deleted : Nat
  errors : Nat
deriving DecidableEq

structure SyncState where
  synced_threads : List (String × SyncedInfo)
  last_sync : Option String
  sync_stats : CumStats

/-- `load_state`'s fresh state when no state file exists. -/
def freshState : SyncState := ⟨[], none, ⟨0, 0, 0, 0⟩⟩

/-- Remove a key from a dict (the keys of a Python dict are unique). -/
def eraseA {α : Type} (k : String) (l : List (String × α)) : List (String × α) :=
  l.filter (fun p => !(p.1 == k))

/-- Dict assignment: update in place, or append a new key at the end. -/
def setA {α : Type} (k : String) (v : α) (l : List (String × α)) : List (String × α) :=
  if (lookupA k l).isSome then l.map (fun p => if p.1 == k then (k, v) else p)
  else l ++ [(k, v)]

/-! ### Reconciler -/

/-- The thread directory: thread id ↦ its `meta.json` document (present keys
are the threads whose record file exists). -/
def Fs := List (String × Doc)

/-- Write-back of the event id and sync timestamp into the task record
(`meta.setdefault("sync", ...)` then the two field assignments). -/
def writeBackMeta (m : Meta) (eventId : PyVal) (ts : String) : Meta :=
  let s := m.sync.getD emptySyncMeta
  { m with sync := some { s with calendar_event_id := some eventId, calendar_synced_at := some ts } }

/-- The create path shared by "no entry" and "entry without addressable id". -/
def syncCreate (fs : Fs) (st : SyncState) (threadId : String) (g : GOracle) (k : Nat)
    (clk : Clock) (m : Meta) (currentHash : String) :
    Except PyErr (String × Fs × SyncState × Nat) :=
  match createCalendarEvent g k threadId m clk with
  | Except.error e => Except.error e
  | Except.ok (some eid, k2) =>
    let ts := isoZ clk.nowUTC
    let entry : SyncedInfo :=
      ⟨some eid, ts, issueNumberOf m, currentHash, normalizePriority m.priority, none⟩
    let m' := writeBackMeta m eid ts
    Except.ok ("created", setA threadId (Doc.obj m') fs,
      { st with synced_threads := setA threadId entry st.synced_threads }, k2)
  | Except.ok (none, k2) => Except.ok ("error", fs, st, k2)

/-- `status in ["done", "closed", "completed"]`. -/
def isTerminalStatus (s : String) : Bool :=
  s == "done" || s == "closed" || s == "completed"

/-- `sync_thread_to_calendar`: one per-task step.  Returns the result string
together with the updated thread directory, state and call counter; only
`json.JSONDecodeError` is caught, so a document whose JSON is not an object
raises `AttributeError` out of the step. -/
def syncThread (fs : Fs) (st : SyncState) (threadId : String) (g : GOracle) (k : Nat)
    (clk : Clock) : Except PyErr (String × Fs × SyncState × Nat) :=
  match lookupA threadId fs with
  | none => Except.ok ("skipped", fs, st, k)
  | some Doc.malformed => Except.ok ("error", fs, st, k)
  | some Doc.nonObj => Except.error PyErr.attributeError
  | some (Doc.obj m) =>
    let status := m.status.getD "active"
    let sInfo := lookupA threadId st.synced_threads
    if isTerminalStatus status then
      match sInfo with
      | some e =>
        match e.event_id with
        | some eid =>
          if eid.truthy then
            let k2 :=
              if !(eid.beqStr "created_no_id") then
                (deleteCalendarEvent g k eid (m.name.getD threadId)).2
              else k
            Except.ok ("deleted", fs,
              { st with synced_threads := eraseA threadId st.synced_threads }, k2)
          else Except.ok ("skipped", fs, st, k)
        | none => Except.ok ("skipped", fs, st, k)
      | none => Except.ok ("skipped", fs, st, k)
    else
      let currentHash := getThreadHash m
      match sInfo with
      | some e =>
        if e.hash == currentHash then Except.ok ("skipped", fs, st, k)
        else
          match e.event_id with
          | some eid =>
            if eid.truthy && !(eid.beqStr "created_no_id") then
              let upd := updateCalendarEvent g k eid threadId m clk
              if upd.1 then
                let e' := { e with hash := currentHash, updated_at := some (isoZ clk.nowUTC) }
                Except.ok ("updated", fs,
                  { st with synced_threads := setA threadId e' st.synced_threads }, upd.2)
              else Except.ok ("error", fs, st, upd.2)
            else syncCreate fs st threadId g k clk m currentHash
          | none => syncCreate fs st threadId g k clk m currentHash
      | none => syncCreate fs st threadId g k clk m currentHash

/-- The `for thread_id in orphaned` loop of `cleanup_orphaned_events`. -/
def cleanupFold (g : GOracle) : List String → SyncState → Nat → SyncState × Nat
  | [], st, k => (st, k)
  | t :: ts, st, k =>
    match lookupA t st.synced_threads with
    | some e =>
      let k2 :=
        match e.event_id with
        | some eid =>
          if eid.truthy && !(eid.beqStr "created_no_id") then
            (deleteCalendarEvent g k eid t).2
          else k
        | none => k
      cleanupFold g ts { st with synced_threads := eraseA t st.synced_threads } k2
    | none => cleanupFold g ts st k

/-- `cleanup_orphaned_events`: entries whose thread directory (record file)
no longer exists are deleted best-effort and dropped; returns the orphan
count.  The lookup inside the loop cannot miss for duplicate-free state. -/
def cleanupOrphaned (fs : Fs) (st : SyncState) (g : GOracle) (k : Nat) :
    Nat × SyncState × Nat :=
  let orphaned := (st.synced_threads.map Prod.fst).filter (fun t => (lookupA t fs).isNone)
  let res := cleanupFold g orphaned st k
  (orphaned.length, res.1, res.2)

/-- The per-run statistics are a Python dict: the source initialises the five
keys and then does `stats[result] = stats.get(result, 0) + 1`, which for the
result string `"error"` creates a new `"error"` key distinct from the
initialised `"errors"` key. -/
def statsInit : List (String × Nat) :=
  [("created", 0), ("updated", 0), ("deleted", 0), ("skipped", 0), ("errors", 0)]

def dictBump (k : String) (d : List (String × Nat)) : List (String × Nat) :=
  setA k ((lookupA k d).getD 0 + 1) d

def dictAdd (k : String) (n : Nat) (d : List (String × Nat)) : List (String × Nat) :=
  setA k ((lookupA k d).getD 0 + n) d

/-- The `for thread_id in sorted(threads)` loop of `main`. -/
def syncLoop (g : GOracle) (clk : Clock) :
    List String → Fs → SyncState → List (String × Nat) → Nat →
    Except PyErr (Fs × SyncState × List (String × Nat) × Nat)
  | [], fs, st, stats, k => Except.ok (fs, st, stats, k)
  | t :: rest, fs, st, stats, k =>
    match syncThread fs st t g k clk with
    | Except.error e => Except.error e
    | Except.ok (r, fs', st', k') => syncLoop g clk rest fs' st' (dictBump r stats) k'

/-- `main` (after `load_state`): orphan cleanup, the sorted per-thread loop,
cumulative stats update and the `save_state` timestamp stamp; returns the
final thread directory, state, per-run stats dict, call counter and exit
code. -/
def runSync (fs : Fs) (st : SyncState) (g : GOracle) (clk : Clock) :
    Except PyErr (Fs × SyncState × List (String × Nat) × Nat × Nat) :=
  let cleanupRes := cleanupOrphaned fs st g 0
  let stats1 :=
    if 0 < cleanupRes.1 then dictAdd "deleted" cleanupRes.1 statsInit else statsInit
  let threads := sortStrings (fs.map Prod.fst)
  match syncLoop g clk threads fs cleanupRes.2.1 stats1 cleanupRes.2.2 with
  | Except.error e => Except.error e
  | Except.ok (fs2, st2, stats2, k2) =>
    let cum := st2.sync_stats
    let cum' : CumStats :=
      ⟨cum.created + (lookupA "created" stats2).getD 0,
       cum.updated + (lookupA "updated" stats2).getD 0,
       cum.deleted + (lookupA "deleted" stats2).getD 0,
       cum.errors + (lookupA "errors" stats2).getD 0⟩
    let st3 := { st2 with sync_stats := cum', last_sync := some (isoZ clk.nowUTC) }
    let exitCode := if 0 < (lookupA "errors" stats2).getD 0 then 1 else 0
    Except.ok (fs2, st3, stats2, k2, exitCode)

/-! ### `save_state` persistence (for the crash-atomicity claim)

`STATE_FILE.write_text(...)` opens the file for writing — truncating it —
and then writes the serialisation; the observable on-disk contents at a
crash are the old contents (before the open) or any prefix of the new
contents (from the empty file up to the complete write). -/

def optPyValJson : Option PyVal → Json
  | none => Json.null
  | some v => pyValJson v

def syncedInfoToJson (e : SyncedInfo) : Json :=
  Json.obj
    ([("event_id", optPyValJson e.event_id),
      ("synced_at", Json.str e.synced_at),
      ("issue_number", match e.issue_number with
        | some i => intToJson i
        | none => Json.null),
      ("hash", Json.str e.hash),
      ("priority", Json.str e.priority)] ++
     (match e.updated_at with
      | some u => [("updated_at", Json.str u)]
      | none => []))

def stateToJson (st : SyncState) : Json :=
  Json.obj
    [("synced_threads", Json.obj (st.synced_threads.map (fun p => (p.1, syncedInfoToJson p.2)))),
     ("last_sync", optStrJson st.last_sync),
     ("sync_stats", Json.obj
       [("created", intToJson (st.sync_stats.created : Int)),
        ("updated", intToJson (st.sync_stats.updated : Int)),
        ("deleted", intToJson (st.sync_stats.deleted : Int)),
        ("errors", intToJson (st.sync_stats.errors : Int))])]

/-- `save_state` stamps the timestamp before serialising. -/
def stampLastSync (st : SyncState) (nowUTC : Int) : SyncState :=
  { st with last_sync := some (isoZ nowUTC) }

/-- `json.dumps(state, indent=2)`. -/
def stateDumps (st : SyncState) : String := dumpsJsonInd 0 (stateToJson st)

/-- On-disk contents observable if the process crashes at any point during
`write_text`: the previous contents, then the truncated file, then every
prefix of the new contents. -/
def writeTextTrace (content : String) (old : Option String) : List (Option String) :=
  old :: (List.range (content.data.length + 1)).map (fun i => some (String.mk (content.data.take i)))

/-- Crash-observable on-disk states of `save_state`. -/
def saveStateTrace (st : SyncState) (nowUTC : Int) (old : Option String) : List (Option String) :=
  writeTextTrace (stateDumps (stampLastSync st nowUTC)) old

/-! ### Statement-side helpers and concrete fixtures -/

/-- Boolean string-prefix test used to state the crash-trace property. -/
def strIsPrefixOf (p s : String) : Bool := List.isPrefixOf p.data s.data

/-- The enumerated identifier-extraction failures of the spec: no JSON object
substring, unparseable JSON, or a missing (or falsy) `id` field. -/
def extractionFailsB (o : String) : Bool :=
  match braceSuffix o with
  | none => true
  | some s =>
    match jsonLoads s with
    | none => true
    | some (Json.obj fields) =>
      match objGet "id" fields with
      | none => true
      | some v => !jsonTruthy v
    | some _ => false

/-- A record with every field absent. -/
def metaBare : Meta := ⟨none, none, none, none, none, none, none, none, none⟩

/-- An always-succeeding gateway with empty output. -/
def gOk : GOracle := fun _ _ => Outcome.completed 0 "" ""

/-- A gateway whose successful output carries a numeric `id`. -/
def gNumId : GOracle := fun _ _ => Outcome.completed 0 "\x7b\"id\": 1\x7d" ""

/-- A gateway whose successful output carries a JSON-array `id`. -/
def gArrId : GOracle := fun _ _ => Outcome.completed 0 "\x7b\"id\": [\"E\"]\x7d" ""

/-- A gateway whose successful output contains no JSON object. -/
def gNoJson : GOracle := fun _ _ => Outcome.completed 0 "no json" ""

/-- An always-failing gateway (non-zero exit). -/
def gFail : GOracle := fun _ _ => Outcome.completed 1 "boom" ""

/-- A closed task record. -/
def metaClosed : Meta :=
  ⟨some "n", none, some "closed", none, none, none, none, none, none⟩

/-- An active task record. -/
def metaActive : Meta :=
  ⟨some "n", none, some "active", none, none, none, none, none, none⟩

/-- A tracked entry with an addressable event id. -/
def entryE1 : SyncedInfo := ⟨some (PyVal.str "E1"), "ts", none, "stale", "P4", none⟩

/-- Python truthiness of an optional event-id field. -/
def truthyOptId : Option PyVal → Bool
  | none => false
  | some v => v.truthy

/-- The `id` value of the first JSON object substring of an output, when the
output has one and it parses (`event_data.get("id")`). -/
def idValueOf (o : String) : Option Json :=
  match braceSuffix o with
  | some s =>
    match jsonLoads s with
    | some (Json.obj fields) => objGet "id" fields
    | _ => none
  | none => none

/-- JSON values whose Python counterparts reject the slice `v[:20]` with
`TypeError` (numbers, booleans, objects); strings and lists slice fine. -/
def sliceRaises : Json → Bool
  | Json.str _ => false
  | Json.arr _ => false
  | _ => true

/-- Did the invocation complete with exit code zero? -/
def outcomeOk : Outcome → Bool
  | .completed rc _ _ => rc == 0
  | _ => false

/-- A key of the reconciled system is settled when re-running the per-task
step can only skip (or re-report a parse error): the document is absent or
unreadable, a terminal task has no deletable entry left, and an active task's
entry fingerprint matches its record. -/
def entrySettled (d : Option Doc) (e? : Option SyncedInfo) : Bool :=
  match d with
  | none => true
  | some Doc.malformed => true
  | some Doc.nonObj => false
  | some (Doc.obj m) =>
    if isTerminalStatus (m.status.getD "active") then
      match e? with
      | none => true
      | some e => !truthyOptId e.event_id
    else
      match e? with
      | some e => e.hash == getThreadHash m
      | none => false

def settledAt (fs : Fs) (st : SyncState) (t : String) : Bool :=
  entrySettled (lookupA t fs) (lookupA t st.synced_threads)

/-- Two consecutive runs: the second starts from the thread directory and
state the first produced. -/
def runTwice (fs : Fs) (st : SyncState) (g : GOracle) (clk : Clock) (g2 : GOracle)
    (clk2 : Clock) : Except PyErr (Fs × SyncState × List (String × Nat) × Nat × Nat) :=
  match runSync fs st g clk with
  | Except.ok (fs1, st1, _, _, _) => runSync fs1 st1 g2 clk2
  | Except.error e => Except.error e

/-- The second run's observables for the idempotence claim: its created,
updated and deleted counters and its gateway call count. -/
def run2Summary (fs : Fs) (st : SyncState) (g : GOracle) (clk : Clock) (g2 : GOracle)
    (clk2 : Clock) : Option (Nat × Nat × Nat × Nat) :=
  match runTwice fs st g clk g2 clk2 with
  | Except.ok (_, _, stats2, k2, _) =>
    some ((lookupA "created" stats2).getD 0, (lookupA "updated" stats2).getD 0,
      (lookupA "deleted" stats2).getD 0, k2)
  | Except.error _ => none

/-- A completed run's "deleted" statistic paired with the number of sync
entries that were present before the run and are gone after it. -/
def runDeletedStatAndRemovals (fs : Fs) (st : SyncState) (g : GOracle) (clk : Clock) :
    Option (Nat × Nat) :=
  match runSync fs st g clk with
  | Except.ok (_, st', stats, _, _) =>
    some ((lookupA "deleted" stats).getD 0,
      ((st.synced_threads.map Prod.fst).filter
        (fun t => (lookupA t st'.synced_threads).isNone)).length)
  | Except.error _ => none

/-! ## Theorems -/

/-- Every value `normalize_priority` can return. -/
theorem normalizePriority_cases (p : Option String) :
    normalizePriority p = "P1" ∨ normalizePriority p = "P2" ∨
    normalizePriority p = "P3" ∨ normalizePriority p = "P4" := by
  cases p with
  | none => simp [normalizePriority]
  | some s =>
    simp only [normalizePriority]
    split_ifs <;> simp

/-- Claim C6: a non-zero exit code, a timeout, or any other invocation error
never raises out of `run_calendar_command`: each becomes a failure flag
paired with a short diagnostic string (the combined output, the fixed
timeout message, or the stringified exception). -/
theorem C6_gateway_failures_become_results (rc : Int) (out err msg : String) (h : rc ≠ 0) :
    runCalendarCommand (Outcome.completed rc out err) = (false, out ++ err) ∧
    runCalendarCommand Outcome.timedOut = (false, "Command timed out") ∧
    runCalendarCommand (Outcome.raised msg) = (false, msg) := by
  refine ⟨?_, rfl, rfl⟩
  show ((rc == 0 : Bool), out ++ err) = (false, out ++ err)
  rw [beq_eq_false_iff_ne.mpr h]

/-- Witness for C6 at a concrete failing invocation. -/
theorem C6_gateway_failures_become_results_witness :
    (1 : Int) ≠ 0 ∧
    (runCalendarCommand (Outcome.completed 1 "boom" "x") = (false, "boom" ++ "x") ∧
     runCalendarCommand Outcome.timedOut = (false, "Command timed out") ∧
     runCalendarCommand (Outcome.raised "oops") = (false, "oops")) :=
  ⟨by decide, C6_gateway_failures_become_results 1 "boom" "x" "oops" (by decide)⟩

/-- Claim C2 is false on the code: with no deadline source and an absent
priority (normalized to rank 4), the resolved deadline is resolution time +
30 days, not + the configurable default of 7 days stated by the claim. -/
theorem C2_counterexample :
    getDeadline metaBare DEFAULT_DEADLINE_DAYS ⟨0, 0⟩ = 30 * daySecs ∧
    getDeadline metaBare DEFAULT_DEADLINE_DAYS ⟨0, 0⟩ ≠ 0 + DEFAULT_DEADLINE_DAYS * daySecs := by
  constructor
  · decide
  · decide

/-- Claim C2 (amended): when strategies 1–5 all fail, the resolved deadline is
resolution time plus 3/7/14 days for ranks 1–3 and 30 days for rank 4 —
which is where absent and unrecognized priorities land; the configurable
default-days argument is dead because normalization always produces a
recognized rank. -/
theorem C2_amended (m : Meta) (dflt : Int) (clk : Clock)
    (h1 : deadlineS1 m clk = none) (h2 : deadlineS2 m = none)
    (h3 : deadlineS3 m clk = none) (h4 : deadlineS4 m clk = none)
    (h5 : deadlineS5 m clk = none) :
    getDeadline m dflt clk = clk.nowLocal + daySecs *
      (if normalizePriority m.priority = "P1" then 3
       else if normalizePriority m.priority = "P2" then 7
       else if normalizePriority m.priority = "P3" then 14 else 30) := by
  unfold getDeadline
  rw [h1, h2, h3, h4, h5]
  rcases normalizePriority_cases m.priority with h | h | h | h <;>
    simp [h, lookupA, priorityDaysTable]

/-- Witness for the amended C2 on the all-absent record. -/
theorem C2_amended_witness :
    (deadlineS1 metaBare ⟨0, 0⟩ = none ∧ deadlineS2 metaBare = none ∧
     deadlineS3 metaBare ⟨0, 0⟩ = none ∧ deadlineS4 metaBare ⟨0, 0⟩ = none ∧
     deadlineS5 metaBare ⟨0, 0⟩ = none) ∧
    getDeadline metaBare 7 ⟨0, 0⟩ = (⟨0, 0⟩ : Clock).nowLocal + daySecs *
      (if normalizePriority metaBare.priority = "P1" then 3
       else if normalizePriority metaBare.priority = "P2" then 7
       else if normalizePriority metaBare.priority = "P3" then 14 else 30) :=
  ⟨⟨by decide, by decide, by decide, by decide, by decide⟩,
   C2_amended metaBare 7 ⟨0, 0⟩ (by decide) (by decide) (by decide) (by decide) (by decide)⟩

/-- Claim C3 is false on the code: `save_state` truncates the state file in
place, so the crash trace contains the empty file — a truncated state that is
neither the previously persisted contents nor the completed new contents. -/
theorem C3_counterexample :
    (saveStateTrace freshState 0 (some "OLD")).get? 1 = some (some "") ∧
    ("" : String) ≠ "OLD" ∧
    ("" : String) ≠ stateDumps (stampLastSync freshState 0) := by
  refine ⟨by decide, by decide, by decide⟩

/-- Claim C3 (amended): every crash-observable on-disk state during
`save_state` is either the previous contents (only before the truncating
open) or some prefix — possibly empty, possibly partial — of the new
serialisation; the previous state does not survive once writing begins. -/
theorem C3_amended (st : SyncState) (nowUTC : Int) (old x : Option String)
    (hx : x ∈ saveStateTrace st nowUTC old) :
    x = old ∨ (x.isSome = true ∧
      strIsPrefixOf (x.getD "") (stateDumps (stampLastSync st nowUTC)) = true) := by
  unfold saveStateTrace writeTextTrace at hx
  rcases List.mem_cons.mp hx with h | h
  · exact Or.inl h
  · right
    rcases List.mem_map.mp h with ⟨i, _hi, rfl⟩
    refine ⟨rfl, ?_⟩
    show List.isPrefixOf ((stateDumps (stampLastSync st nowUTC)).data.take i)
      (stateDumps (stampLastSync st nowUTC)).data = true
    exact List.isPrefixOf_iff_prefix.mpr (List.take_prefix i _)

/-- Witness for the amended C3: the truncated-empty crash state is a prefix
of the new serialisation. -/
theorem C3_amended_witness :
    ((some "" : Option String) ∈ saveStateTrace freshState 0 (some "OLD")) ∧
    ((some "" : Option String) = some "OLD" ∨ ((some "" : Option String).isSome = true ∧
      strIsPrefixOf ((some "" : Option String).getD "") (stateDumps (stampLastSync freshState 0)) = true)) :=
  ⟨by decide, C3_amended freshState 0 (some "OLD") (some "") (by decide)⟩

/-- Claim C8: the fingerprint is a pure function of display name, normalized
priority, status, the raw deadline field, and the sorted label set — any two
records agreeing on those five agree on the fingerprint, whatever their
other fields (in particular the resolved deadline date is not an input). -/
theorem C8_fingerprint_congruence (a b : Meta)
    (hname : a.name = b.name)
    (hprio : normalizePriority a.priority = normalizePriority b.priority)
    (hstatus : a.status = b.status)
    (hdl : a.deadline = b.deadline)
    (hlabels : sortStrings (a.labels.getD []) = sortStrings (b.labels.getD [])) :
    getThreadHash a = getThreadHash b := by
  unfold getThreadHash
  rw [hname, hprio, hstatus, hdl, hlabels]

/-- Two records differing in priority spelling, label order, due date,
description, notes and sync metadata — but agreeing on the five fingerprint
inputs — hash identically. -/
def metaW1 : Meta :=
  ⟨some "Ship v2", some "2", some "active", some "due tomorrow", some "2026-01-01",
   some ["b", "a"], some "descA", some "nA", none⟩

def metaW2 : Meta :=
  ⟨some "Ship v2", some "P2", some "active", some "due tomorrow", none,
   some ["a", "b"], some "descB", none, some ⟨some 5, none, none, none⟩⟩

/-- Witness for C8 on two concretely different records. -/
theorem C8_fingerprint_congruence_witness :
    (metaW1.name = metaW2.name ∧
     normalizePriority metaW1.priority = normalizePriority metaW2.priority ∧
     metaW1.status = metaW2.status ∧ metaW1.deadline = metaW2.deadline ∧
     sortStrings (metaW1.labels.getD []) = sortStrings (metaW2.labels.getD [])) ∧
    getThreadHash metaW1 = getThreadHash metaW2 :=
  ⟨⟨by decide, by decide, by decide, by decide, by decide⟩,
   C8_fingerprint_congruence metaW1 metaW2 (by decide) (by decide) (by decide) (by decide)
     (by decide)⟩

/-- When extraction fails in one of the enumerated ways, the gateway yields
the sentinel rather than failing. -/
theorem extractEventId_of_fails (o : String) (h : extractionFailsB o = true) :
    extractEventId o = Except.ok (PyVal.str "created_no_id") := by
  unfold extractionFailsB at h
  unfold extractEventId
  cases hb : braceSuffix o with
  | none => simp [hb]
  | some s =>
    simp only [hb] at h ⊢
    cases hl : jsonLoads s with
    | none => simp [hl]
    | some j =>
      simp only [hl] at h ⊢
      cases j with
      | obj fields =>
        cases hg : objGet "id" fields with
        | none => simp [hg]
        | some v =>
          simp only [hg, Bool.not_eq_true'] at h ⊢
          simp [h]
      | null => simp
      | bool b => simp
      | num a b c d => simp
      | numConst s2 => simp
      | str s2 => simp
      | arr xs => simp

/-- Claim C7 is false on the code: a successful create whose output's first
JSON object carries a truthy numeric `id` raises `TypeError` from the
success log's `event_id[:20]` slice instead of returning the id or the
sentinel. -/
theorem C7_counterexample :
    extractEventId ("\x7b\"id\": 1\x7d" ++ "") = Except.error PyErr.typeError ∧
    createCalendarEvent gNumId 0 "t1" metaBare ⟨0, 0⟩ = Except.error PyErr.typeError := by
  exact ⟨rfl, rfl⟩

/-- The extraction, rephrased through the `id` value it locates. -/
theorem extractEventId_eq (o : String) :
    extractEventId o =
      (match idValueOf o with
       | some v =>
         if jsonTruthy v then idResult v
         else Except.ok (PyVal.str "created_no_id")
       | none => Except.ok (PyVal.str "created_no_id")) := by
  unfold extractEventId idValueOf
  cases braceSuffix o with
  | none => rfl
  | some s =>
    show (match jsonLoads s with
          | some (Json.obj fields) =>
            match objGet "id" fields with
            | some v => if jsonTruthy v then idResult v
              else Except.ok (PyVal.str "created_no_id")
            | none => Except.ok (PyVal.str "created_no_id")
          | some _ => Except.ok (PyVal.str "created_no_id")
          | none => Except.ok (PyVal.str "created_no_id")) =
        (match (match jsonLoads s with
                | some (Json.obj fields) => objGet "id" fields
                | _ => none) with
         | some v => if jsonTruthy v then idResult v
           else Except.ok (PyVal.str "created_no_id")
         | none => Except.ok (PyVal.str "created_no_id"))
    cases jsonLoads s with
    | none => rfl
    | some j => cases j <;> rfl

/-- The extraction's behaviour keyed by the truthy `id` value found: a string
or list is returned as-is, anything else raises from the slice. -/
theorem extractEventId_of_id (o : String) (v : Json) (hid : idValueOf o = some v)
    (htr : jsonTruthy v = true) :
    extractEventId o = idResult v := by
  rw [extractEventId_eq, hid]
  show (if jsonTruthy v then idResult v else Except.ok (PyVal.str "created_no_id")) = idResult v
  simp [htr]

/-- Claim C7 (amended): on a successful create, extraction failures of the
enumerated kinds — no JSON object substring, unparseable JSON, or a missing
or falsy `id` field — still count the create as successful and yield the
"identity unknown" sentinel; a truthy string `id` is returned; a truthy
list `id` survives the success log's slice and is returned as the (list)
identifier; and a truthy `id` of any other kind (number, boolean, object)
raises `TypeError` out of the gateway from that slice. -/
theorem C7_amended (g : GOracle) (k : Nat) (tid : String) (m : Meta) (clk : Clock) (o : String)
    (hsucc : runCalendarCommand (g k (createArgs tid m clk)) = (true, o)) :
    (extractionFailsB o = true →
      createCalendarEvent g k tid m clk = Except.ok (some (PyVal.str "created_no_id"), k + 1)) ∧
    (∀ s, idValueOf o = some (Json.str s) → jsonTruthy (Json.str s) = true →
      createCalendarEvent g k tid m clk = Except.ok (some (PyVal.str s), k + 1)) ∧
    (∀ l, idValueOf o = some (Json.arr l) → jsonTruthy (Json.arr l) = true →
      createCalendarEvent g k tid m clk = Except.ok (some (PyVal.arr l), k + 1)) ∧
    (∀ v, idValueOf o = some v → jsonTruthy v = true → sliceRaises v = true →
      createCalendarEvent g k tid m clk = Except.error PyErr.typeError) := by
  refine ⟨?_, ?_, ?_, ?_⟩
  · intro hfail
    unfold createCalendarEvent
    rw [hsucc]
    simp [extractEventId_of_fails o hfail]
  · intro s hid htr
    unfold createCalendarEvent
    rw [hsucc]
    simp [extractEventId_of_id o _ hid htr, idResult]
  · intro l hid htr
    unfold createCalendarEvent
    rw [hsucc]
    simp [extractEventId_of_id o _ hid htr, idResult]
  · intro v hid htr hsl
    unfold createCalendarEvent
    rw [hsucc]
    have hex := extractEventId_of_id o v hid htr
    cases v with
    | str s => simp [sliceRaises] at hsl
    | arr l => simp [sliceRaises] at hsl
    | null => simp [hex, idResult]
    | bool b => simp [hex, idResult]
    | num a b c d => simp [hex, idResult]
    | numConst s2 => simp [hex, idResult]
    | obj fields => simp [hex, idResult]

/-- Witness for the amended C7: a successful create whose output's first
JSON object carries the truthy list id `["E"]` returns that list as the
identifier rather than raising. -/
theorem C7_amended_witness :
    (runCalendarCommand (gArrId 0 (createArgs "t1" metaBare ⟨0, 0⟩)) =
      (true, "\x7b\"id\": [\"E\"]\x7d") ∧
     idValueOf "\x7b\"id\": [\"E\"]\x7d" = some (Json.arr [Json.str "E"]) ∧
     jsonTruthy (Json.arr [Json.str "E"]) = true) ∧
    createCalendarEvent gArrId 0 "t1" metaBare ⟨0, 0⟩ =
      Except.ok (some (PyVal.arr [Json.str "E"]), 0 + 1) :=
  ⟨⟨by decide, rfl, by decide⟩,
   (C7_amended gArrId 0 "t1" metaBare ⟨0, 0⟩ "\x7b\"id\": [\"E\"]\x7d" (by decide)).2.2.1
     [Json.str "E"] rfl (by decide)⟩

/-- Claim C5: a tracked task (entry present, truthy event id) whose status is
terminal yields exactly one delete attempt when the id is addressable — and
none when it is the sentinel — and its entry is removed either way,
whatever the delete call returns (the oracle `g` is arbitrary and the
result does not depend on it). -/
theorem C5_terminal_one_delete_and_removal (fs : Fs) (st : SyncState) (tid : String)
    (g : GOracle) (k : Nat) (clk : Clock) (m : Meta) (e : SyncedInfo) (eid : String)
    (hdoc : lookupA tid fs = some (Doc.obj m))
    (hterm : isTerminalStatus (m.status.getD "active") = true)
    (hentry : lookupA tid st.synced_threads = some e)
    (heid : e.event_id = some (PyVal.str eid))
    (hne : eid ≠ "") :
    syncThread fs st tid g k clk =
      Except.ok ("deleted", fs, { st with synced_threads := eraseA tid st.synced_threads },
        if eid = "created_no_id" then k else k + 1) := by
  unfold syncThread
  simp only [hdoc, hterm, hentry, heid, if_true]
  have hne' : (eid == "") = false := beq_eq_false_iff_ne.mpr hne
  simp only [PyVal.truthy, PyVal.beqStr, hne', Bool.not_false, if_true]
  unfold deleteCalendarEvent
  by_cases hs : eid = "created_no_id"
  · simp [hs]
  · have hs' : (eid == "created_no_id") = false := beq_eq_false_iff_ne.mpr hs
    simp [hs', hs]

/-- Witness for C5 on a concrete closed task with an addressable id; the
gateway oracle used always fails, showing removal despite delete failure. -/
theorem C5_terminal_one_delete_and_removal_witness :
    (lookupA "t1" [("t1", Doc.obj metaClosed)] = some (Doc.obj metaClosed) ∧
     isTerminalStatus (metaClosed.status.getD "active") = true ∧
     lookupA "t1" [("t1", entryE1)] = some entryE1 ∧
     entryE1.event_id = some (PyVal.str "E1") ∧ ("E1" : String) ≠ "") ∧
    syncThread [("t1", Doc.obj metaClosed)] (⟨[("t1", entryE1)], none, ⟨0, 0, 0, 0⟩⟩ : SyncState)
        "t1" gFail 0 ⟨0, 0⟩ =
      Except.ok ("deleted", [("t1", Doc.obj metaClosed)],
        { (⟨[("t1", entryE1)], none, ⟨0, 0, 0, 0⟩⟩ : SyncState) with
          synced_threads := eraseA "t1" [("t1", entryE1)] },
        if ("E1" : String) = "created_no_id" then 0 else 0 + 1) :=
  ⟨⟨rfl, by decide, rfl, rfl, by decide⟩,
   C5_terminal_one_delete_and_removal [("t1", Doc.obj metaClosed)]
     ⟨[("t1", entryE1)], none, ⟨0, 0, 0, 0⟩⟩ "t1" gFail 0 ⟨0, 0⟩ metaClosed entryE1 "E1"
     rfl (by decide) rfl rfl (by decide)⟩

/-- `lookupA` after appending a fresh key. -/
theorem lookupA_append_single {α : Type} (k : String) (v : α) :
    ∀ l : List (String × α), lookupA k l = none → lookupA k (l ++ [(k, v)]) = some v := by
  intro l
  induction l with
  | nil => intro _; simp [lookupA]
  | cons p l ih =>
    intro h
    simp only [lookupA, List.cons_append] at h ⊢
    by_cases hp : p.1 = k
    · simp [hp] at h
    · simp [hp] at h ⊢
      exact ih h

/-- `lookupA` after an in-place dict update. -/
theorem lookupA_map_replace {α : Type} (k : String) (v : α) :
    ∀ l : List (String × α), (lookupA k l).isSome = true →
      lookupA k (l.map (fun p => if p.1 == k then (k, v) else p)) = some v := by
  intro l
  induction l with
  | nil => intro h; simp [lookupA] at h
  | cons p l ih =>
    intro h
    simp only [lookupA, List.map_cons] at h ⊢
    by_cases hp : p.1 = k
    · simp [hp, lookupA]
    · simp [hp] at h ⊢
      simpa using ih h

/-- Dict assignment makes the key's value visible (`d[k] = v`). -/
theorem lookupA_setA_self {α : Type} (k : String) (v : α) (l : List (String × α)) :
    lookupA k (setA k v l) = some v := by
  unfold setA
  cases h : (lookupA k l).isSome with
  | true => simpa [h] using lookupA_map_replace k v l h
  | false =>
    have hnone : lookupA k l = none := by
      cases hl : lookupA k l
      · rfl
      · rw [hl] at h; simp at h
    simpa [h] using lookupA_append_single k v l hnone

/-- Claim C9: for an active tracked task with a changed fingerprint and an
addressable id, a failed update returns "error" leaving the thread
directory, the whole state — hence the stale entry with its fingerprint and
timestamps — untouched, after exactly the one update call; and `main`'s
tally of that "error" result increments the per-run error count. -/
theorem C9_update_failure_leaves_entry (fs : Fs) (st : SyncState) (tid : String) (g : GOracle)
    (k : Nat) (clk : Clock) (m : Meta) (e : SyncedInfo) (eid : String)
    (hdoc : lookupA tid fs = some (Doc.obj m))
    (hact : isTerminalStatus (m.status.getD "active") = false)
    (hentry : lookupA tid st.synced_threads = some e)
    (hhash : (e.hash == getThreadHash m) = false)
    (heid : e.event_id = some (PyVal.str eid))
    (hid1 : eid ≠ "") (hid2 : eid ≠ "created_no_id")
    (hfail : (runCalendarCommand (g k (updateArgs (PyVal.str eid) tid m clk))).1 = false) :
    syncThread fs st tid g k clk = Except.ok ("error", fs, st, k + 1) ∧
    ∀ stats : List (String × Nat),
      lookupA "error" (dictBump "error" stats) = some ((lookupA "error" stats).getD 0 + 1) := by
  constructor
  · unfold syncThread
    simp only [hdoc, hact, hentry, heid, hhash, if_false, Bool.false_eq_true]
    have h1 : (eid == "") = false := beq_eq_false_iff_ne.mpr hid1
    have h2 : (eid == "created_no_id") = false := beq_eq_false_iff_ne.mpr hid2
    simp only [PyVal.truthy, PyVal.beqStr, h1, h2, Bool.not_false, Bool.and_self, if_true]
    unfold updateCalendarEvent
    simp [hfail]
  · intro stats
    unfold dictBump
    exact lookupA_setA_self _ _ _

/-- Witness for C9 on a concrete changed task whose update call fails. -/
theorem C9_update_failure_leaves_entry_witness :
    (lookupA "t1" [("t1", Doc.obj metaActive)] = some (Doc.obj metaActive) ∧
     isTerminalStatus (metaActive.status.getD "active") = false ∧
     lookupA "t1" [("t1", entryE1)] = some entryE1 ∧
     (entryE1.hash == getThreadHash metaActive) = false ∧
     entryE1.event_id = some (PyVal.str "E1") ∧ ("E1" : String) ≠ "" ∧
     ("E1" : String) ≠ "created_no_id" ∧
     (runCalendarCommand (gFail 0 (updateArgs (PyVal.str "E1") "t1" metaActive ⟨0, 0⟩))).1 =
       false) ∧
    (syncThread [("t1", Doc.obj metaActive)] (⟨[("t1", entryE1)], none, ⟨0, 0, 0, 0⟩⟩ : SyncState)
        "t1" gFail 0 ⟨0, 0⟩ =
          Except.ok ("error", [("t1", Doc.obj metaActive)],
            (⟨[("t1", entryE1)], none, ⟨0, 0, 0, 0⟩⟩ : SyncState), 0 + 1) ∧
     ∀ stats : List (String × Nat),
       lookupA "error" (dictBump "error" stats) = some ((lookupA "error" stats).getD 0 + 1)) :=
  ⟨⟨rfl, by decide, rfl, by decide, rfl, by decide, by decide, by decide⟩,
   C9_update_failure_leaves_entry [("t1", Doc.obj metaActive)]
     ⟨[("t1", entryE1)], none, ⟨0, 0, 0, 0⟩⟩ "t1" gFail 0 ⟨0, 0⟩ metaActive entryE1 "E1"
     rfl (by decide) rfl (by decide) rfl (by decide) (by decide)
     (by decide)⟩

/-- Claim C4 fails on the code: isolation covers only JSON-decode failures.
A record whose JSON parses to a non-object raises `AttributeError` out of
the per-task step and aborts the whole run.  Moreover, an isolated per-task
failure is tallied under a dynamically created `"error"` stats key distinct
from the initialised `"errors"` key that the exit code reads, so a completed
run exits 0 despite errors. -/
theorem C4_per_task_failures_not_isolated :
    syncThread [("t1", Doc.nonObj)] freshState "t1" gOk 0 ⟨0, 0⟩ =
      Except.error PyErr.attributeError ∧
    runSync [("t1", Doc.nonObj)] freshState gOk ⟨0, 0⟩ = Except.error PyErr.attributeError ∧
    (runSync [("t1", Doc.malformed)] freshState gOk ⟨0, 0⟩).toOption.map
      (fun r => (lookupA "error" r.2.2.1, lookupA "errors" r.2.2.1, r.2.2.2.2)) =
      some (some 1, some 0, 0) := by
  exact ⟨rfl, rfl, rfl⟩

/-! ### Dictionary lemmas for the run-level claims -/

theorem lookupA_isSome_iff_mem {α : Type} (k : String) :
    ∀ l : List (String × α), (lookupA k l).isSome = true ↔ k ∈ l.map Prod.fst := by
  intro l
  induction l with
  | nil =>
    constructor
    · intro h; simp [lookupA] at h
    · intro h; exact absurd h (by simp)
  | cons p l ih =>
    simp only [lookupA, List.map_cons, List.mem_cons]
    by_cases hp : p.1 = k
    · simp [hp]
    · rw [if_neg (by simpa using hp)]
      rw [ih]
      constructor
      · exact fun h => Or.inr h
      · rintro (h | h)
        · exact absurd h.symm hp
        · exact h

theorem lookupA_eq_none_of_not_mem {α : Type} (k : String) (l : List (String × α))
    (h : k ∉ l.map Prod.fst) : lookupA k l = none := by
  cases hl : lookupA k l with
  | none => rfl
  | some v =>
    exact absurd ((lookupA_isSome_iff_mem k l).mp (by simp [hl])) h

theorem lookupA_eraseA_self {α : Type} (k : String) :
    ∀ l : List (String × α), lookupA k (eraseA k l) = none := by
  intro l
  induction l with
  | nil => rfl
  | cons p l ih =>
    unfold eraseA at ih ⊢
    rw [List.filter_cons]
    by_cases hp : p.1 = k
    · simpa [hp] using ih
    · simpa [lookupA, hp] using ih

theorem lookupA_eraseA_ne {α : Type} (k u : String) (h : u ≠ k) :
    ∀ l : List (String × α), lookupA u (eraseA k l) = lookupA u l := by
  intro l
  induction l with
  | nil => rfl
  | cons p l ih =>
    unfold eraseA at ih ⊢
    rw [List.filter_cons]
    have hku : ¬ k = u := fun he => h he.symm
    by_cases hp : p.1 = k
    · have hpu : ¬ p.1 = u := fun he => h (he.symm.trans hp)
      simp [hp, lookupA, hpu, hku, h, ih]
    · by_cases hu : p.1 = u
      · simp [hp, lookupA, hu, hku, h]
      · simp [hp, lookupA, hu, hku, h, ih]

theorem lookupA_map_replace_ne {α : Type} (k u : String) (v : α) (hku : ¬ u = k) :
    ∀ l : List (String × α),
      lookupA u (l.map (fun p => if p.1 == k then (k, v) else p)) = lookupA u l := by
  intro l
  induction l with
  | nil => rfl
  | cons p l ih =>
    simp at ih
    simp only [List.map_cons]
    have hku' : ¬ k = u := fun he => hku he.symm
    by_cases hp : p.1 = k
    · have hpu : ¬ p.1 = u := fun he => hku (he.symm.trans hp)
      simp [hp, lookupA, hpu, hku', hku, ih]
    · by_cases hu : p.1 = u
      · simp [hp, lookupA, hu, hku', hku]
      · simp [hp, lookupA, hu, hku', hku, ih]

theorem lookupA_append_ne {α : Type} (k u : String) (v : α) (hku : ¬ u = k) :
    ∀ l : List (String × α), lookupA u (l ++ [(k, v)]) = lookupA u l := by
  intro l
  induction l with
  | nil =>
    have hku' : ¬ k = u := fun he => hku he.symm
    simp [lookupA, hku']
  | cons p l ih =>
    rw [List.cons_append]
    by_cases hu : p.1 = u
    · simp [lookupA, hu]
    · simp [lookupA, hu, ih]

theorem lookupA_setA_ne {α : Type} (k u : String) (v : α) (h : u ≠ k)
    (l : List (String × α)) : lookupA u (setA k v l) = lookupA u l := by
  unfold setA
  by_cases hs : (lookupA k l).isSome = true
  · rw [if_pos hs]
    exact lookupA_map_replace_ne k u v h l
  · rw [if_neg hs]
    exact lookupA_append_ne k u v h l

theorem map_fst_setA_of_isSome {α : Type} (k : String) (v : α) (l : List (String × α))
    (h : (lookupA k l).isSome = true) : (setA k v l).map Prod.fst = l.map Prod.fst := by
  unfold setA
  simp only [h, if_true, List.map_map]
  apply List.map_congr_left
  intro p _
  by_cases hp : p.1 = k
  · simp [hp]
  · simp [hp]

theorem lookupA_dictBump_ne (k u : String) (h : u ≠ k) (d : List (String × Nat)) :
    lookupA u (dictBump k d) = lookupA u d := by
  unfold dictBump
  exact lookupA_setA_ne k u _ h d

theorem lookupA_dictBump_self (k : String) (d : List (String × Nat)) :
    lookupA k (dictBump k d) = some ((lookupA k d).getD 0 + 1) := by
  unfold dictBump
  exact lookupA_setA_self k _ d

/-! ### Inversion of one per-task step -/

/-- A result other than "deleted" on a step that leaves the entry in place
satisfies the removal characterisation vacuously. -/
theorem deleted_iff_of_unchanged (r : String) (hr : r ≠ "deleted") (a : Option SyncedInfo) :
    (r = "deleted" ↔ (a.isSome = true ∧ a = none)) := by
  constructor
  · intro h; exact absurd h hr
  · rintro ⟨hs, hn⟩; rw [hn] at hs; simp at hs

/-- Inversion of the shared create path: it reports "created" (entry written
with the current fingerprint, record file written back) or "error" (nothing
changed); keys of the thread directory are preserved and no other key of
either map is touched. -/
theorem syncCreate_ok_cases (fs : Fs) (st : SyncState) (tid : String) (g : GOracle) (k : Nat)
    (clk : Clock) (m : Meta) (ch : String) (r : String) (fs' : Fs) (st' : SyncState) (k' : Nat)
    (hdoc : (lookupA tid fs).isSome = true)
    (h : syncCreate fs st tid g k clk m ch = Except.ok (r, fs', st', k')) :
    (∀ u, u ≠ tid → lookupA u fs' = lookupA u fs) ∧
    (∀ u, u ≠ tid → lookupA u st'.synced_threads = lookupA u st.synced_threads) ∧
    fs'.map Prod.fst = fs.map Prod.fst ∧
    st'.last_sync = st.last_sync ∧ st'.sync_stats = st.sync_stats ∧
    ((r = "created" ∧ ∃ e, lookupA tid st'.synced_threads = some e ∧ e.hash = ch) ∨
     (r = "error" ∧ st' = st ∧ fs' = fs)) := by
  unfold syncCreate at h
  cases hc : createCalendarEvent g k tid m clk with
  | error e => rw [hc] at h; simp at h
  | ok p =>
    obtain ⟨eidOpt, k2⟩ := p
    cases eidOpt with
    | some eid =>
      rw [hc] at h
      simp only [Except.ok.injEq, Prod.mk.injEq] at h
      obtain ⟨rfl, rfl, rfl, rfl⟩ := h
      refine ⟨fun u hu => lookupA_setA_ne tid u _ hu fs,
        fun u hu => lookupA_setA_ne tid u _ hu st.synced_threads,
        map_fst_setA_of_isSome tid _ fs hdoc, rfl, rfl, Or.inl ⟨rfl, ?_⟩⟩
      exact ⟨_, lookupA_setA_self tid _ st.synced_threads, rfl⟩
    | none =>
      rw [hc] at h
      simp only [Except.ok.injEq, Prod.mk.injEq] at h
      obtain ⟨rfl, rfl, rfl, rfl⟩ := h
      exact ⟨fun u _ => rfl, fun u _ => rfl, rfl, rfl, rfl, Or.inr ⟨rfl, rfl, rfl⟩⟩

/-- Inversion of one successful per-task step: it touches no key other than
its own in either the thread directory or the state, preserves the directory
key set and the state metadata, and reports "deleted" exactly when it
removed the task's (previously present) entry. -/
theorem syncThread_ok_cases (fs : Fs) (st : SyncState) (tid : String) (g : GOracle) (k : Nat)
    (clk : Clock) (r : String) (fs' : Fs) (st' : SyncState) (k' : Nat)
    (h : syncThread fs st tid g k clk = Except.ok (r, fs', st', k')) :
    (∀ u, u ≠ tid → lookupA u fs' = lookupA u fs) ∧
    (∀ u, u ≠ tid → lookupA u st'.synced_threads = lookupA u st.synced_threads) ∧
    fs'.map Prod.fst = fs.map Prod.fst ∧
    st'.last_sync = st.last_sync ∧ st'.sync_stats = st.sync_stats ∧
    (r = "deleted" ↔ ((lookupA tid st.synced_threads).isSome = true ∧
                      lookupA tid st'.synced_threads = none)) := by
  unfold syncThread at h
  cases hdoc : lookupA tid fs with
  | none =>
    simp only [hdoc] at h
    simp only [Except.ok.injEq, Prod.mk.injEq] at h
    obtain ⟨rfl, rfl, rfl, rfl⟩ := h
    exact ⟨fun u _ => rfl, fun u _ => rfl, rfl, rfl, rfl,
      deleted_iff_of_unchanged "skipped" (by decide) (lookupA tid st.synced_threads)⟩
  | some d =>
    cases d with
    | malformed =>
      simp only [hdoc] at h
      simp only [Except.ok.injEq, Prod.mk.injEq] at h
      obtain ⟨rfl, rfl, rfl, rfl⟩ := h
      exact ⟨fun u _ => rfl, fun u _ => rfl, rfl, rfl, rfl,
        deleted_iff_of_unchanged "error" (by decide) (lookupA tid st.synced_threads)⟩
    | nonObj => simp only [hdoc] at h; simp at h
    | obj m =>
      simp only [hdoc] at h
      cases hterm : isTerminalStatus (m.status.getD "active") with
      | true =>
        simp only [hterm, if_true] at h
        cases hentry : lookupA tid st.synced_threads with
        | none =>
          simp only [hentry] at h
          simp only [Except.ok.injEq, Prod.mk.injEq] at h
          obtain ⟨rfl, rfl, rfl, rfl⟩ := h
          refine ⟨fun u _ => rfl, fun u _ => rfl, rfl, rfl, rfl, ?_⟩
          constructor
          · intro hr; exact absurd hr (by decide)
          · rintro ⟨hs, _⟩; simp at hs
        | some e =>
          simp only [hentry] at h
          cases heid : e.event_id with
          | none =>
            simp only [heid] at h
            simp only [Except.ok.injEq, Prod.mk.injEq] at h
            obtain ⟨rfl, rfl, rfl, rfl⟩ := h
            refine ⟨fun u _ => rfl, fun u _ => rfl, rfl, rfl, rfl, ?_⟩
            constructor
            · intro hr; exact absurd hr (by decide)
            · rintro ⟨_, hn⟩; rw [hentry] at hn; simp at hn
          | some eid =>
            simp only [heid] at h
            cases htr : eid.truthy with
            | false =>
              simp only [htr, Bool.false_eq_true, if_false] at h
              simp only [Except.ok.injEq, Prod.mk.injEq] at h
              obtain ⟨rfl, rfl, rfl, rfl⟩ := h
              refine ⟨fun u _ => rfl, fun u _ => rfl, rfl, rfl, rfl, ?_⟩
              constructor
              · intro hr; exact absurd hr (by decide)
              · rintro ⟨_, hn⟩; rw [hentry] at hn; simp at hn
            | true =>
              simp only [htr, if_true] at h
              simp only [Except.ok.injEq, Prod.mk.injEq] at h
              obtain ⟨rfl, rfl, rfl, rfl⟩ := h
              refine ⟨fun u _ => rfl,
                fun u hu => lookupA_eraseA_ne tid u hu st.synced_threads,
                rfl, rfl, rfl, ?_⟩
              constructor
              · intro _
                refine ⟨by simp [hentry], ?_⟩
                show lookupA tid
                  ({ st with synced_threads := eraseA tid st.synced_threads }).synced_threads = none
                exact lookupA_eraseA_self tid st.synced_threads
              · intro _; rfl
      | false =>
        simp only [hterm, Bool.false_eq_true, if_false] at h
        cases hentry : lookupA tid st.synced_threads with
        | none =>
          simp only [hentry] at h
          rcases (syncCreate_ok_cases fs st tid g k clk m (getThreadHash m) r fs' st' k'
            (by rw [hdoc]; rfl) h) with ⟨hf, hsf, hkeys, hls, hss, hcase⟩
          refine ⟨hf, hsf, hkeys, hls, hss, ?_⟩
          rcases hcase with ⟨hr, e, hl, _⟩ | ⟨hr, rfl, rfl⟩
          · subst hr
            constructor
            · intro hr2; exact absurd hr2 (by decide)
            · rintro ⟨_, hn⟩; rw [hl] at hn; simp at hn
          · subst hr
            constructor
            · intro hr2; exact absurd hr2 (by decide)
            · rintro ⟨hs, _⟩; simp at hs
        | some e =>
          simp only [hentry] at h
          cases hhash : e.hash == getThreadHash m with
          | true =>
            simp only [hhash, if_true] at h
            simp only [Except.ok.injEq, Prod.mk.injEq] at h
            obtain ⟨rfl, rfl, rfl, rfl⟩ := h
            refine ⟨fun u _ => rfl, fun u _ => rfl, rfl, rfl, rfl, ?_⟩
            constructor
            · intro hr; exact absurd hr (by decide)
            · rintro ⟨_, hn⟩; rw [hentry] at hn; simp at hn
          | false =>
            simp only [hhash, Bool.false_eq_true, if_false] at h
            cases heid : e.event_id with
            | none =>
              simp only [heid] at h
              rcases (syncCreate_ok_cases fs st tid g k clk m (getThreadHash m) r fs' st' k'
                (by rw [hdoc]; rfl) h) with ⟨hf, hsf, hkeys, hls, hss, hcase⟩
              refine ⟨hf, hsf, hkeys, hls, hss, ?_⟩
              rcases hcase with ⟨hr, e2, hl, _⟩ | ⟨hr, rfl, rfl⟩
              · subst hr
                constructor
                · intro hr2; exact absurd hr2 (by decide)
                · rintro ⟨_, hn⟩; rw [hl] at hn; simp at hn
              · subst hr
                constructor
                · intro hr2; exact absurd hr2 (by decide)
                · rintro ⟨_, hn⟩; rw [hentry] at hn; simp at hn
            | some eid =>
              simp only [heid] at h
              cases haddr : (eid.truthy && !(eid.beqStr "created_no_id")) with
              | false =>
                simp only [haddr, Bool.false_eq_true, if_false] at h
                rcases (syncCreate_ok_cases fs st tid g k clk m (getThreadHash m) r fs' st' k'
                  (by rw [hdoc]; rfl) h) with ⟨hf, hsf, hkeys, hls, hss, hcase⟩
                refine ⟨hf, hsf, hkeys, hls, hss, ?_⟩
                rcases hcase with ⟨hr, e2, hl, _⟩ | ⟨hr, rfl, rfl⟩
                · subst hr
                  constructor
                  · intro hr2; exact absurd hr2 (by decide)
                  · rintro ⟨_, hn⟩; rw [hl] at hn; simp at hn
                · subst hr
                  constructor
                  · intro hr2; exact absurd hr2 (by decide)
                  · rintro ⟨_, hn⟩; rw [hentry] at hn; simp at hn
              | true =>
                simp only [haddr, if_true] at h
                cases hupd : (updateCalendarEvent g k eid tid m clk).1 with
                | true =>
                  simp only [hupd, if_true] at h
                  simp only [Except.ok.injEq, Prod.mk.injEq] at h
                  obtain ⟨rfl, rfl, rfl, rfl⟩ := h
                  refine ⟨fun u _ => rfl,
                    fun u hu => lookupA_setA_ne tid u _ hu st.synced_threads,
                    rfl, rfl, rfl, ?_⟩
                  constructor
                  · intro hr; exact absurd hr (by decide)
                  · rintro ⟨_, hn⟩
                    simp [lookupA_setA_self] at hn
                | false =>
                  simp only [hupd, Bool.false_eq_true, if_false] at h
                  simp only [Except.ok.injEq, Prod.mk.injEq] at h
                  obtain ⟨rfl, rfl, rfl, rfl⟩ := h
                  refine ⟨fun u _ => rfl, fun u _ => rfl, rfl, rfl, rfl, ?_⟩
                  constructor
                  · intro hr; exact absurd hr (by decide)
                  · rintro ⟨_, hn⟩; rw [hentry] at hn; simp at hn

/-! ### The step under an always-succeeding gateway -/

theorem runCalendarCommand_fst_of_ok (o : Outcome) (h : outcomeOk o = true) :
    (runCalendarCommand o).1 = true := by
  cases o with
  | completed rc out err => simpa [outcomeOk, runCalendarCommand] using h
  | timedOut => simp [outcomeOk] at h
  | raised msg => simp [outcomeOk] at h

/-- Write-back touches only the nested sync object, not the fingerprint
inputs. -/
theorem getThreadHash_writeBack (m : Meta) (eid : PyVal) (ts : String) :
    getThreadHash (writeBackMeta m eid ts) = getThreadHash m := rfl

theorem status_writeBack (m : Meta) (eid : PyVal) (ts : String) :
    (writeBackMeta m eid ts).status = m.status := rfl

/-- Under a successful create invocation, the create path reports "created",
writes the entry with the given fingerprint and writes the event id back
into the record. -/
theorem syncCreate_ok_of_success (fs : Fs) (st : SyncState) (tid : String) (g : GOracle)
    (k : Nat) (clk : Clock) (m : Meta) (ch : String) (r : String) (fs' : Fs) (st' : SyncState)
    (k' : Nat)
    (hgk : (runCalendarCommand (g k (createArgs tid m clk))).1 = true)
    (h : syncCreate fs st tid g k clk m ch = Except.ok (r, fs', st', k')) :
    r = "created" ∧
    (∃ eid, fs' = setA tid (Doc.obj (writeBackMeta m eid (isoZ clk.nowUTC))) fs ∧
      (∃ e, lookupA tid st'.synced_threads = some e ∧ e.hash = ch)) := by
  unfold syncCreate createCalendarEvent at h
  simp only [hgk, if_true] at h
  cases hex : extractEventId (runCalendarCommand (g k (createArgs tid m clk))).2 with
  | error e => rw [hex] at h; simp at h
  | ok eid =>
    rw [hex] at h
    simp only [Except.ok.injEq, Prod.mk.injEq] at h
    obtain ⟨rfl, rfl, rfl, rfl⟩ := h
    exact ⟨rfl, eid, rfl, _, lookupA_setA_self tid _ st.synced_threads, rfl⟩

/-- Under an always-succeeding gateway, a per-task step that returns leaves
its own key settled. -/
theorem syncThread_settles (fs : Fs) (st : SyncState) (tid : String) (g : GOracle) (k : Nat)
    (clk : Clock) (r : String) (fs' : Fs) (st' : SyncState) (k' : Nat)
    (hg : ∀ i a, outcomeOk (g i a) = true)
    (h : syncThread fs st tid g k clk = Except.ok (r, fs', st', k')) :
    settledAt fs' st' tid = true := by
  have hgk : ∀ i a, (runCalendarCommand (g i a)).1 = true :=
    fun i a => runCalendarCommand_fst_of_ok _ (hg i a)
  unfold syncThread at h
  cases hdoc : lookupA tid fs with
  | none =>
    simp only [hdoc] at h
    simp only [Except.ok.injEq, Prod.mk.injEq] at h
    obtain ⟨rfl, rfl, rfl, rfl⟩ := h
    simp [settledAt, entrySettled, hdoc]
  | some d =>
    cases d with
    | malformed =>
      simp only [hdoc] at h
      simp only [Except.ok.injEq, Prod.mk.injEq] at h
      obtain ⟨rfl, rfl, rfl, rfl⟩ := h
      simp [settledAt, entrySettled, hdoc]
    | nonObj => simp only [hdoc] at h; simp at h
    | obj m =>
      simp only [hdoc] at h
      cases hterm : isTerminalStatus (m.status.getD "active") with
      | true =>
        simp only [hterm, if_true] at h
        cases hentry : lookupA tid st.synced_threads with
        | none =>
          simp only [hentry] at h
          simp only [Except.ok.injEq, Prod.mk.injEq] at h
          obtain ⟨rfl, rfl, rfl, rfl⟩ := h
          simp [settledAt, entrySettled, hdoc, hterm, hentry]
        | some e =>
          simp only [hentry] at h
          cases heid : e.event_id with
          | none =>
            simp only [heid] at h
            simp only [Except.ok.injEq, Prod.mk.injEq] at h
            obtain ⟨rfl, rfl, rfl, rfl⟩ := h
            simp [settledAt, entrySettled, hdoc, hterm, hentry, truthyOptId, heid]
          | some eid =>
            simp only [heid] at h
            cases htr : eid.truthy with
            | false =>
              simp only [htr, Bool.false_eq_true, if_false] at h
              simp only [Except.ok.injEq, Prod.mk.injEq] at h
              obtain ⟨rfl, rfl, rfl, rfl⟩ := h
              simp [settledAt, entrySettled, hdoc, hterm, hentry, truthyOptId, heid, htr]
            | true =>
              simp only [htr, if_true] at h
              simp only [Except.ok.injEq, Prod.mk.injEq] at h
              obtain ⟨rfl, rfl, rfl, rfl⟩ := h
              simp [settledAt, entrySettled, hdoc, hterm, lookupA_eraseA_self]
      | false =>
        simp only [hterm, Bool.false_eq_true, if_false] at h
        cases hentry : lookupA tid st.synced_threads with
        | none =>
          simp only [hentry] at h
          rcases syncCreate_ok_of_success fs st tid g k clk m (getThreadHash m) r fs' st' k'
            (hgk k _) h with ⟨_, eid, rfl, e, hl, hh⟩
          have hfs' : lookupA tid (setA tid (Doc.obj (writeBackMeta m eid (isoZ clk.nowUTC))) fs)
              = some (Doc.obj (writeBackMeta m eid (isoZ clk.nowUTC))) :=
            lookupA_setA_self tid _ fs
          simp [settledAt, entrySettled, hfs', hl, hh, status_writeBack, getThreadHash_writeBack,
            hterm]
        | some e =>
          simp only [hentry] at h
          cases hhash : e.hash == getThreadHash m with
          | true =>
            simp only [hhash, if_true] at h
            simp only [Except.ok.injEq, Prod.mk.injEq] at h
            obtain ⟨rfl, rfl, rfl, rfl⟩ := h
            simp [settledAt, entrySettled, hdoc, hterm, hentry, hhash]
          | false =>
            simp only [hhash, Bool.false_eq_true, if_false] at h
            cases heid : e.event_id with
            | none =>
              simp only [heid] at h
              rcases syncCreate_ok_of_success fs st tid g k clk m (getThreadHash m) r fs' st' k'
                (hgk k _) h with ⟨_, eid, rfl, e2, hl, hh⟩
              have hfs' : lookupA tid
                  (setA tid (Doc.obj (writeBackMeta m eid (isoZ clk.nowUTC))) fs)
                  = some (Doc.obj (writeBackMeta m eid (isoZ clk.nowUTC))) :=
                lookupA_setA_self tid _ fs
              simp [settledAt, entrySettled, hfs', hl, hh, status_writeBack,
                getThreadHash_writeBack, hterm]
            | some eid =>
              simp only [heid] at h
              cases haddr : (eid.truthy && !(eid.beqStr "created_no_id")) with
              | false =>
                simp only [haddr, Bool.false_eq_true, if_false] at h
                rcases syncCreate_ok_of_success fs st tid g k clk m (getThreadHash m) r fs' st' k'
                  (hgk k _) h with ⟨_, eid2, rfl, e2, hl, hh⟩
                have hfs' : lookupA tid
                    (setA tid (Doc.obj (writeBackMeta m eid2 (isoZ clk.nowUTC))) fs)
                    = some (Doc.obj (writeBackMeta m eid2 (isoZ clk.nowUTC))) :=
                  lookupA_setA_self tid _ fs
                simp [settledAt, entrySettled, hfs', hl, hh, status_writeBack,
                  getThreadHash_writeBack, hterm]
              | true =>
                simp only [haddr, if_true] at h
                have hu : (updateCalendarEvent g k eid tid m clk).1 = true := hgk k _
                simp only [hu, if_true] at h
                simp only [Except.ok.injEq, Prod.mk.injEq] at h
                obtain ⟨rfl, rfl, rfl, rfl⟩ := h
                simp [settledAt, entrySettled, hdoc, hterm, lookupA_setA_self]

/-- A settled key's step is a pure no-op: it reports "error" exactly for an
unreadable record and "skipped" otherwise, touching nothing and making no
gateway call. -/
theorem syncThread_of_settled (fs : Fs) (st : SyncState) (tid : String) (g : GOracle) (k : Nat)
    (clk : Clock) (hset : settledAt fs st tid = true) :
    syncThread fs st tid g k clk =
      Except.ok ((if isMalformedDoc (lookupA tid fs) then "error" else "skipped"),
        fs, st, k) := by
  unfold settledAt entrySettled at hset
  unfold syncThread
  cases hdoc : lookupA tid fs with
  | none => simp [hdoc, isMalformedDoc]
  | some d =>
    cases d with
    | malformed => simp [hdoc, isMalformedDoc]
    | nonObj => rw [hdoc] at hset; simp at hset
    | obj m =>
      simp only [hdoc] at hset
      simp only [hdoc]
      cases hterm : isTerminalStatus (m.status.getD "active") with
      | true =>
        simp only [hterm, if_true] at hset ⊢
        cases hentry : lookupA tid st.synced_threads with
        | none => simp [hentry, isMalformedDoc]
        | some e =>
          simp only [hentry] at hset
          cases heid : e.event_id with
          | none => simp [hentry, heid, isMalformedDoc]
          | some eid =>
            simp only [heid, truthyOptId] at hset
            have htr : eid.truthy = false := by
              cases hv : eid.truthy
              · rfl
              · rw [hv] at hset; exact absurd hset (by decide)
            simp [hentry, heid, htr, isMalformedDoc]
      | false =>
        simp only [hterm, Bool.false_eq_true, if_false] at hset ⊢
        cases hentry : lookupA tid st.synced_threads with
        | none =>
          simp only [hentry] at hset
          exact absurd hset (by decide)
        | some e =>
          simp only [hentry] at hset
          simp [hentry, hset, isMalformedDoc]

/-! ### The orphan-cleanup pass -/

theorem cleanupFold_meta (g : GOracle) :
    ∀ (ks : List String) (st : SyncState) (k : Nat),
      ((cleanupFold g ks st k).1).last_sync = st.last_sync ∧
      ((cleanupFold g ks st k).1).sync_stats = st.sync_stats := by
  intro ks
  induction ks with
  | nil => intro st k; exact ⟨rfl, rfl⟩
  | cons t ts ih =>
    intro st k
    unfold cleanupFold
    cases he : lookupA t st.synced_threads with
    | some e =>
      simp only [he]
      exact ih _ _
    | none =>
      simp only [he]
      exact ih _ _

theorem cleanupFold_lookup (g : GOracle) :
    ∀ (ks : List String) (st : SyncState) (k : Nat) (u : String),
      lookupA u ((cleanupFold g ks st k).1).synced_threads =
        if u ∈ ks then none else lookupA u st.synced_threads := by
  intro ks
  induction ks with
  | nil => intro st k u; simp [cleanupFold]
  | cons t ts ih =>
    intro st k u
    unfold cleanupFold
    cases he : lookupA t st.synced_threads with
    | some e =>
      simp only [he]
      rw [ih]
      by_cases hut : u = t
      · subst hut
        by_cases hts : u ∈ ts
        · simp [hts]
        · simp [hts, lookupA_eraseA_self]
      · by_cases hts : u ∈ ts
        · simp [hts, hut]
        · simp [hts, hut, lookupA_eraseA_ne t u hut]
    | none =>
      simp only [he]
      rw [ih]
      by_cases hut : u = t
      · subst hut
        by_cases hts : u ∈ ts
        · simp [hts]
        · simp [hts, he]
      · by_cases hts : u ∈ ts <;> simp [hts, hut]

theorem cleanupOrphaned_lookup (fs : Fs) (st : SyncState) (g : GOracle) (k : Nat) (u : String) :
    lookupA u ((cleanupOrphaned fs st g k).2.1).synced_threads =
      if (lookupA u fs).isNone = true then none else lookupA u st.synced_threads := by
  unfold cleanupOrphaned
  rw [cleanupFold_lookup]
  by_cases hfs : (lookupA u fs).isNone = true
  · simp only [hfs, if_true]
    by_cases hmem : u ∈ (st.synced_threads.map Prod.fst).filter (fun t => (lookupA t fs).isNone)
    · simp [hmem]
    · simp only [hmem, if_false]
      have hnm : u ∉ st.synced_threads.map Prod.fst := by
        intro hin
        exact hmem (List.mem_filter.mpr ⟨hin, by simpa using hfs⟩)
      simp [lookupA_eq_none_of_not_mem u _ hnm]
  · simp only [hfs, if_false]
    have hnm : u ∉ (st.synced_threads.map Prod.fst).filter (fun t => (lookupA t fs).isNone) := by
      intro hin
      exact hfs (by simpa using (List.mem_filter.mp hin).2)
    simp [hnm]

theorem cleanupOrphaned_meta (fs : Fs) (st : SyncState) (g : GOracle) (k : Nat) :
    ((cleanupOrphaned fs st g k).2.1).last_sync = st.last_sync ∧
    ((cleanupOrphaned fs st g k).2.1).sync_stats = st.sync_stats := by
  unfold cleanupOrphaned
  exact cleanupFold_meta g _ st k

theorem cleanupOrphaned_count (fs : Fs) (st : SyncState) (g : GOracle) (k : Nat) :
    (cleanupOrphaned fs st g k).1 =
      ((st.synced_threads.map Prod.fst).filter (fun t => (lookupA t fs).isNone)).length := rfl

/-! ### `sorted()` facts -/

theorem sortStrings_perm (l : List String) : (sortStrings l).Perm l :=
  List.perm_insertionSort _ l

theorem mem_sortStrings {u : String} {l : List String} : u ∈ sortStrings l ↔ u ∈ l :=
  (sortStrings_perm l).mem_iff

theorem nodup_sortStrings {l : List String} (h : l.Nodup) : (sortStrings l).Nodup :=
  ((sortStrings_perm l).nodup_iff).mpr h

/-! ### The per-thread loop of `main` -/

theorem syncLoop_frame (g : GOracle) (clk : Clock) :
    ∀ (ts : List String) (fs : Fs) (st : SyncState) (stats : List (String × Nat)) (k : Nat)
      (fs' : Fs) (st' : SyncState) (stats' : List (String × Nat)) (k' : Nat),
      syncLoop g clk ts fs st stats k = Except.ok (fs', st', stats', k') →
      (∀ u, u ∉ ts → lookupA u fs' = lookupA u fs ∧
        lookupA u st'.synced_threads = lookupA u st.synced_threads) ∧
      fs'.map Prod.fst = fs.map Prod.fst ∧
      st'.last_sync = st.last_sync ∧ st'.sync_stats = st.sync_stats := by
  intro ts
  induction ts with
  | nil =>
    intro fs st stats k fs' st' stats' k' h
    simp only [syncLoop, Except.ok.injEq, Prod.mk.injEq] at h
    obtain ⟨rfl, rfl, rfl, rfl⟩ := h
    exact ⟨fun u _ => ⟨rfl, rfl⟩, rfl, rfl, rfl⟩
  | cons t ts ih =>
    intro fs st stats k fs' st' stats' k' h
    unfold syncLoop at h
    cases hstep : syncThread fs st t g k clk with
    | error e =>
      simp only [hstep] at h
      exact Except.noConfusion h
    | ok q =>
      obtain ⟨r, fs1, st1, k1⟩ := q
      simp only [hstep] at h
      obtain ⟨hf, hkeys, hls, hss⟩ := ih fs1 st1 _ k1 fs' st' stats' k' h
      obtain ⟨sf, ss, skeys, sls, sss, _⟩ := syncThread_ok_cases fs st t g k clk r fs1 st1 k1 hstep
      refine ⟨?_, hkeys.trans skeys, hls.trans sls, hss.trans sss⟩
      intro u hu
      have hut : u ≠ t := fun he => hu (he ▸ List.mem_cons_self t ts)
      have huts : u ∉ ts := fun he => hu (List.mem_cons_of_mem t he)
      obtain ⟨h1, h2⟩ := hf u huts
      exact ⟨h1.trans (sf u hut), h2.trans (ss u hut)⟩

theorem syncLoop_settles (g : GOracle) (clk : Clock)
    (hg : ∀ i a, outcomeOk (g i a) = true) :
    ∀ (ts : List String) (fs : Fs) (st : SyncState) (stats : List (String × Nat)) (k : Nat)
      (fs' : Fs) (st' : SyncState) (stats' : List (String × Nat)) (k' : Nat),
      syncLoop g clk ts fs st stats k = Except.ok (fs', st', stats', k') → ts.Nodup →
      ∀ t ∈ ts, settledAt fs' st' t = true := by
  intro ts
  induction ts with
  | nil =>
    intro fs st stats k fs' st' stats' k' _ _ t ht
    simp at ht
  | cons t0 ts ih =>
    intro fs st stats k fs' st' stats' k' h hnd t ht
    unfold syncLoop at h
    cases hstep : syncThread fs st t0 g k clk with
    | error e =>
      simp only [hstep] at h
      exact Except.noConfusion h
    | ok q =>
      obtain ⟨r, fs1, st1, k1⟩ := q
      simp only [hstep] at h
      rcases List.mem_cons.mp ht with rfl | hts
      · have hset1 : settledAt fs1 st1 t = true :=
          syncThread_settles fs st t g k clk r fs1 st1 k1 hg hstep
        obtain ⟨hf, _, _, _⟩ := syncLoop_frame g clk ts fs1 st1 _ k1 fs' st' stats' k' h
        have hnin : t ∉ ts := (List.nodup_cons.mp hnd).1
        obtain ⟨h1, h2⟩ := hf t hnin
        unfold settledAt at hset1 ⊢
        rw [h1, h2]
        exact hset1
      · exact ih fs1 st1 _ k1 fs' st' stats' k' h (List.nodup_cons.mp hnd).2 t hts

theorem syncLoop_of_settled (g : GOracle) (clk : Clock) :
    ∀ (ts : List String) (fs : Fs) (st : SyncState) (stats : List (String × Nat)) (k : Nat),
      (∀ t ∈ ts, settledAt fs st t = true) →
      ∃ stats', syncLoop g clk ts fs st stats k = Except.ok (fs, st, stats', k) ∧
        ∀ u, u ≠ "skipped" → u ≠ "error" → lookupA u stats' = lookupA u stats := by
  intro ts
  induction ts with
  | nil => intro fs st stats k _; exact ⟨stats, rfl, fun u _ _ => rfl⟩
  | cons t ts ih =>
    intro fs st stats k hset
    have hstep := syncThread_of_settled fs st t g k clk (hset t (List.mem_cons_self t ts))
    obtain ⟨stats', hloop, hstats⟩ := ih fs st
      (dictBump (if isMalformedDoc (lookupA t fs) then "error" else "skipped") stats) k
      (fun u hu => hset u (List.mem_cons_of_mem t hu))
    refine ⟨stats', ?_, ?_⟩
    · unfold syncLoop
      simp only [hstep]
      exact hloop
    · intro u h1 h2
      rw [hstats u h1 h2]
      by_cases hm : isMalformedDoc (lookupA t fs) = true
      · rw [if_pos hm]
        exact lookupA_dictBump_ne _ u h2 stats
      · rw [if_neg hm]
        exact lookupA_dictBump_ne _ u h1 stats

/-! ### Whole-run lemmas -/

/-- Inversion of `runSync`: every successful run factors through the orphan
cleanup and the sorted per-thread loop; the final state differs from the
loop's only in the cumulative stats and the save timestamp. -/
theorem runSync_inv (fs : Fs) (st : SyncState) (g : GOracle) (clk : Clock)
    (out : Fs × SyncState × List (String × Nat) × Nat × Nat)
    (h : runSync fs st g clk = Except.ok out) :
    ∃ fs2 st2 stats2 k2,
      syncLoop g clk (sortStrings (fs.map Prod.fst)) fs (cleanupOrphaned fs st g 0).2.1
        (if 0 < (cleanupOrphaned fs st g 0).1
          then dictAdd "deleted" (cleanupOrphaned fs st g 0).1 statsInit else statsInit)
        (cleanupOrphaned fs st g 0).2.2 = Except.ok (fs2, st2, stats2, k2) ∧
      out.1 = fs2 ∧ out.2.1.synced_threads = st2.synced_threads ∧
      out.2.2.1 = stats2 ∧ out.2.2.2.1 = k2 := by
  simp only [runSync] at h
  split at h
  next e heq => exact Except.noConfusion h
  next fs2 st2 stats2 k2 heq =>
    injection h with h2
    subst h2
    exact ⟨fs2, st2, stats2, k2, heq, rfl, rfl, rfl, rfl⟩

/-- After a completed run under an always-succeeding gateway, every key is
settled and every tracked entry's record file exists. -/
theorem runSync_post (fs : Fs) (st : SyncState) (g : GOracle) (clk : Clock)
    (fs1 : Fs) (st1 : SyncState) (stats1 : List (String × Nat)) (k1 ec1 : Nat)
    (hnodupF : (fs.map Prod.fst).Nodup)
    (hg : ∀ i a, outcomeOk (g i a) = true)
    (h : runSync fs st g clk = Except.ok (fs1, st1, stats1, k1, ec1)) :
    (∀ t, settledAt fs1 st1 t = true) ∧
    (∀ u, (lookupA u st1.synced_threads).isSome = true → (lookupA u fs1).isSome = true) := by
  obtain ⟨fs2, st2, stats2, k2, hloop, h1x, h2x, _h3, _h4⟩ := runSync_inv fs st g clk _ h
  have h1 : fs1 = fs2 := h1x
  have h2 : st1.synced_threads = st2.synced_threads := h2x
  have hts_nodup : (sortStrings (fs.map Prod.fst)).Nodup := nodup_sortStrings hnodupF
  have hsettled := syncLoop_settles g clk hg _ fs _ _ _ fs2 st2 stats2 k2 hloop hts_nodup
  have hframe := syncLoop_frame g clk _ fs _ _ _ fs2 st2 stats2 k2 hloop
  constructor
  · intro t
    by_cases hmem : t ∈ sortStrings (fs.map Prod.fst)
    · have hs := hsettled t hmem
      unfold settledAt at hs ⊢
      rw [h1, h2]
      exact hs
    · have hnfs : t ∉ fs.map Prod.fst := fun hin => hmem (mem_sortStrings.mpr hin)
      have he : lookupA t fs2 = lookupA t fs := (hframe.1 t hmem).1
      have hnone : lookupA t fs1 = none := by
        rw [h1, he]
        exact lookupA_eq_none_of_not_mem t fs hnfs
      unfold settledAt
      rw [hnone]
      rfl
  · intro u hu
    rw [h2] at hu
    by_cases hmem : u ∈ sortStrings (fs.map Prod.fst)
    · have hmem2 : u ∈ fs.map Prod.fst := mem_sortStrings.mp hmem
      rw [h1, lookupA_isSome_iff_mem, hframe.2.1]
      exact hmem2
    · have h5 := (hframe.1 u hmem).2
      rw [h5, cleanupOrphaned_lookup] at hu
      by_cases hfs : (lookupA u fs).isNone = true
      · rw [if_pos hfs] at hu
        simp at hu
      · have hsome : (lookupA u fs).isSome = true := by
          cases ho : lookupA u fs
          · rw [ho] at hfs; simp at hfs
          · rfl
        exact absurd (mem_sortStrings.mpr ((lookupA_isSome_iff_mem u fs).mp hsome)) hmem

/-- Claim C1 (idempotence): when the task records do not change between two
consecutive runs — the second run starts exactly from the thread directory
and state the first produced — and the first run's gateway calls all
succeed, the second run performs zero creates, zero updates, zero deletes
and zero gateway calls: every task is classified as skip (or re-reported as
a parse error for an unreadable record, with no mutation either way). -/
theorem C1_second_run_is_noop (fs : Fs) (st : SyncState) (g g2 : GOracle) (clk clk2 : Clock)
    (hnodupF : (fs.map Prod.fst).Nodup)
    (hg : ∀ i a, outcomeOk (g i a) = true)
    (hok : (runSync fs st g clk).toOption.isSome = true) :
    run2Summary fs st g clk g2 clk2 = some (0, 0, 0, 0) := by
  cases hrun : runSync fs st g clk with
  | error e => rw [hrun] at hok; simp [Except.toOption] at hok
  | ok out =>
    obtain ⟨fs1, st1, stats1, k1, ec1⟩ := out
    obtain ⟨hsettledAll, horphclause⟩ :=
      runSync_post fs st g clk fs1 st1 stats1 k1 ec1 hnodupF hg hrun
    have horph2 : (st1.synced_threads.map Prod.fst).filter
        (fun t => (lookupA t fs1).isNone) = [] := by
      apply List.filter_eq_nil_iff.mpr
      intro t hin
      have hsome := (lookupA_isSome_iff_mem t st1.synced_threads).mpr hin
      have hfs1 := horphclause t hsome
      cases ho : lookupA t fs1
      · rw [ho] at hfs1; simp at hfs1
      · simp [ho]
    have hcl2 : cleanupOrphaned fs1 st1 g2 0 = (0, st1, 0) := by
      simp only [cleanupOrphaned, horph2]
      rfl
    obtain ⟨stats', hloop2, hpres⟩ := syncLoop_of_settled g2 clk2
      (sortStrings (fs1.map Prod.fst)) fs1 st1 statsInit 0 (fun t _ => hsettledAll t)
    unfold run2Summary runTwice
    simp only [hrun]
    simp only [runSync, hcl2]
    rw [if_neg (by decide : ¬ (0 : Nat) < 0)]
    rw [hloop2]
    simp only [hpres "created" (by decide) (by decide),
      hpres "updated" (by decide) (by decide), hpres "deleted" (by decide) (by decide)]
    rfl

/-- Witness for C1: a one-thread directory, first run creating the event
(one gateway call), second run all-skip with zero calls. -/
theorem C1_second_run_is_noop_witness :
    ([("t1", Doc.obj metaActive)].map (Prod.fst (α := String) (β := Doc))).Nodup ∧
    (runSync [("t1", Doc.obj metaActive)] freshState gOk ⟨0, 0⟩).toOption.isSome = true ∧
    run2Summary [("t1", Doc.obj metaActive)] freshState gOk ⟨0, 0⟩ gOk ⟨86400, 86400⟩ =
      some (0, 0, 0, 0) :=
  ⟨by decide, by decide,
   C1_second_run_is_noop [("t1", Doc.obj metaActive)] freshState gOk gOk ⟨0, 0⟩ ⟨86400, 86400⟩
     (by decide) (fun i a => rfl) (by decide)⟩

/-! ### Counting removed entries (claim C10) -/

theorem filter_length_split (p q pr : String → Bool) :
    ∀ l : List String,
      (∀ t ∈ l, p t = (q t || pr t)) → (∀ t ∈ l, (q t && pr t) = false) →
      (l.filter p).length = (l.filter q).length + (l.filter pr).length := by
  intro l
  induction l with
  | nil => intro _ _; rfl
  | cons t l ih =>
    intro hcov hdisj
    have hc := hcov t (List.mem_cons_self t l)
    have hd := hdisj t (List.mem_cons_self t l)
    have ihl := ih (fun u hu => hcov u (List.mem_cons_of_mem t hu))
      (fun u hu => hdisj u (List.mem_cons_of_mem t hu))
    simp only [List.filter_cons]
    cases hq : q t with
    | true =>
      cases hpr : pr t with
      | true => rw [hq, hpr] at hd; simp at hd
      | false =>
        rw [hq, hpr] at hc
        simp only [hc, hq, hpr, Bool.or_false, if_true, Bool.false_eq_true, if_false]
        simp only [List.length_cons]
        omega
    | false =>
      cases hpr : pr t with
      | true =>
        rw [hq, hpr] at hc
        simp only [hc, hq, hpr, Bool.false_or, if_true, Bool.false_eq_true, if_false]
        simp only [List.length_cons]
        omega
      | false =>
        rw [hq, hpr] at hc
        simp only [hc, hq, hpr, Bool.or_self, Bool.false_eq_true, if_false]
        exact ihl

theorem filter_length_eq_of_mem_iff (l1 l2 : List String) (p1 p2 : String → Bool)
    (h1 : l1.Nodup) (h2 : l2.Nodup)
    (hiff : ∀ t, (t ∈ l1 ∧ p1 t = true) ↔ (t ∈ l2 ∧ p2 t = true)) :
    (l1.filter p1).length = (l2.filter p2).length := by
  have hperm : (l1.filter p1).Perm (l2.filter p2) := by
    rw [List.perm_ext_iff_of_nodup (h1.filter p1) (h2.filter p2)]
    intro a
    simp only [List.mem_filter]
    exact hiff a
  exact hperm.length_eq

/-- Over the sorted per-thread loop, the "deleted" tally grows by exactly the
number of processed keys whose entry was present before and absent after. -/
theorem syncLoop_deleted_count (g : GOracle) (clk : Clock) :
    ∀ (ts : List String) (fs : Fs) (st : SyncState) (stats : List (String × Nat)) (k : Nat)
      (fs' : Fs) (st' : SyncState) (stats' : List (String × Nat)) (k' : Nat),
      syncLoop g clk ts fs st stats k = Except.ok (fs', st', stats', k') → ts.Nodup →
      (lookupA "deleted" stats').getD 0 =
        (lookupA "deleted" stats).getD 0 +
          (ts.filter (fun t => (lookupA t st.synced_threads).isSome &&
            (lookupA t st'.synced_threads).isNone)).length := by
  intro ts
  induction ts with
  | nil =>
    intro fs st stats k fs' st' stats' k' h _
    simp only [syncLoop, Except.ok.injEq, Prod.mk.injEq] at h
    obtain ⟨rfl, rfl, rfl, rfl⟩ := h
    simp
  | cons t ts ih =>
    intro fs st stats k fs' st' stats' k' h hnd
    unfold syncLoop at h
    cases hstep : syncThread fs st t g k clk with
    | error e =>
      simp only [hstep] at h
      exact Except.noConfusion h
    | ok q =>
      obtain ⟨r, fs1, st1, k1⟩ := q
      simp only [hstep] at h
      obtain ⟨_, ss, _, _, _, sdel⟩ := syncThread_ok_cases fs st t g k clk r fs1 st1 k1 hstep
      obtain ⟨hf, _, _, _⟩ := syncLoop_frame g clk ts fs1 st1 _ k1 fs' st' stats' k' h
      have hnin : t ∉ ts := (List.nodup_cons.mp hnd).1
      have hrest := ih fs1 st1 (dictBump r stats) k1 fs' st' stats' k' h (List.nodup_cons.mp hnd).2
      have hheadlookup : lookupA t st'.synced_threads = lookupA t st1.synced_threads :=
        (hf t hnin).2
      have hfiltertail : ts.filter (fun u => (lookupA u st1.synced_threads).isSome &&
            (lookupA u st'.synced_threads).isNone) =
          ts.filter (fun u => (lookupA u st.synced_threads).isSome &&
            (lookupA u st'.synced_threads).isNone) := by
        apply List.filter_congr
        intro u hu
        have hut : u ≠ t := fun he => hnin (he ▸ hu)
        rw [ss u hut]
      rw [hfiltertail] at hrest
      rw [List.filter_cons]
      by_cases hdel : r = "deleted"
      · obtain ⟨hsome, hnone⟩ := sdel.mp hdel
        have hpred : ((lookupA t st.synced_threads).isSome &&
            (lookupA t st'.synced_threads).isNone) = true := by
          rw [hheadlookup, hsome, hnone]
          rfl
        rw [if_pos hpred]
        subst hdel
        rw [hrest]
        have hbump : (lookupA "deleted" (dictBump "deleted" stats)).getD 0 =
            (lookupA "deleted" stats).getD 0 + 1 := by
          rw [lookupA_dictBump_self]
          rfl
        rw [hbump]
        simp only [List.length_cons]
        omega
      · have hpred : ((lookupA t st.synced_threads).isSome &&
            (lookupA t st'.synced_threads).isNone) = false := by
          rw [hheadlookup]
          cases h1 : (lookupA t st.synced_threads).isSome with
          | false => rfl
          | true =>
            cases h2 : (lookupA t st1.synced_threads).isNone with
            | false => rfl
            | true =>
              exfalso
              apply hdel
              apply sdel.mpr
              refine ⟨h1, ?_⟩
              cases ho : lookupA t st1.synced_threads with
              | none => rfl
              | some e => rw [ho] at h2; simp at h2
        rw [if_neg (by simp [hpred])]
        rw [hrest]
        have hne : ("deleted" : String) ≠ r := fun he => hdel he.symm
        rw [lookupA_dictBump_ne r "deleted" hne stats]

/-- Core counting identity for a completed run. -/
theorem runSync_deleted_count (fs : Fs) (st : SyncState) (g : GOracle) (clk : Clock)
    (fs' : Fs) (st' : SyncState) (stats : List (String × Nat)) (k ec : Nat)
    (hnodupF : (fs.map Prod.fst).Nodup)
    (hnodupS : (st.synced_threads.map Prod.fst).Nodup)
    (h : runSync fs st g clk = Except.ok (fs', st', stats, k, ec)) :
    (lookupA "deleted" stats).getD 0 =
      ((st.synced_threads.map Prod.fst).filter
        (fun t => (lookupA t st'.synced_threads).isNone)).length := by
  obtain ⟨fs2, st2, stats2, k2, hloop, _h1x, h2x, h3x, _h4x⟩ := runSync_inv fs st g clk _ h
  have h2 : st'.synced_threads = st2.synced_threads := h2x
  have h3 : stats = stats2 := h3x
  subst h3
  have hts_nodup : (sortStrings (fs.map Prod.fst)).Nodup := nodup_sortStrings hnodupF
  have hframe := syncLoop_frame g clk _ fs _ _ _ fs2 st2 stats k2 hloop
  have hcount := syncLoop_deleted_count g clk _ fs _ _ _ fs2 st2 stats k2 hloop hts_nodup
  have hinit : (lookupA "deleted" (if 0 < (cleanupOrphaned fs st g 0).1
      then dictAdd "deleted" (cleanupOrphaned fs st g 0).1 statsInit else statsInit)).getD 0 =
      (cleanupOrphaned fs st g 0).1 := by
    by_cases h0 : 0 < (cleanupOrphaned fs st g 0).1
    · rw [if_pos h0]
      unfold dictAdd
      rw [lookupA_setA_self]
      have h00 : (lookupA "deleted" statsInit).getD 0 = 0 := by decide
      simp [h00]
    · rw [if_neg h0]
      show (0 : Nat) = (cleanupOrphaned fs st g 0).1
      omega
  rw [hcount, hinit]
  rw [cleanupOrphaned_count]
  rw [h2]
  -- split the removed keys into orphan removals and loop removals
  have hsplit := filter_length_split
    (fun t => (lookupA t st2.synced_threads).isNone)
    (fun t => (lookupA t fs).isNone)
    (fun t => !(lookupA t fs).isNone && (lookupA t st2.synced_threads).isNone)
    (st.synced_threads.map Prod.fst)
    (by
      intro t _
      dsimp only
      cases hfs : (lookupA t fs).isNone with
      | true =>
        -- orphan: gone after cleanup and never touched by the loop
        have hnts : t ∉ sortStrings (fs.map Prod.fst) := by
          intro hin
          have hm := mem_sortStrings.mp hin
          have := (lookupA_isSome_iff_mem t fs).mpr hm
          cases ho : lookupA t fs
          · rw [ho] at this; simp at this
          · rw [ho] at hfs; simp at hfs
        have hcl := cleanupOrphaned_lookup fs st g 0 t
        rw [if_pos hfs] at hcl
        have hst2 : lookupA t st2.synced_threads =
            lookupA t (cleanupOrphaned fs st g 0).2.1.synced_threads := (hframe.1 t hnts).2
        rw [hst2, hcl]
        rfl
      | false => cases hn : (lookupA t st2.synced_threads).isNone <;> rfl)
    (by
      intro t _
      dsimp only
      cases hfs : (lookupA t fs).isNone with
      | true => rfl
      | false => rfl)
  rw [hsplit]
  congr 1
  -- loop removals counted over the thread list equal those over the state keys
  refine filter_length_eq_of_mem_iff _ _ _ _ hts_nodup hnodupS ?_
  intro t
  dsimp only
  constructor
  · rintro ⟨hts, hp⟩
    have hmfs : t ∈ fs.map Prod.fst := mem_sortStrings.mp hts
    have hfs_some : (lookupA t fs).isSome = true := (lookupA_isSome_iff_mem t fs).mpr hmfs
    have hfs_nn : (lookupA t fs).isNone = false := by
      cases ho : lookupA t fs
      · rw [ho] at hfs_some; simp at hfs_some
      · rfl
    have hcl := cleanupOrphaned_lookup fs st g 0 t
    rw [if_neg (by simp [hfs_nn])] at hcl
    rw [Bool.and_eq_true] at hp
    obtain ⟨hp1, hp2⟩ := hp
    rw [hcl] at hp1
    refine ⟨(lookupA_isSome_iff_mem t st.synced_threads).mp hp1, ?_⟩
    rw [Bool.and_eq_true]
    exact ⟨by rw [hfs_nn]; rfl, hp2⟩
  · rintro ⟨hst, hp⟩
    rw [Bool.and_eq_true] at hp
    obtain ⟨hp1, hp2⟩ := hp
    have hfs_nn : (lookupA t fs).isNone = false := by
      cases ho : lookupA t fs
      · rw [ho] at hp1; simp at hp1
      · rfl
    have hfs_some : (lookupA t fs).isSome = true := by
      cases ho : lookupA t fs
      · rw [ho] at hfs_nn; simp at hfs_nn
      · rfl
    have hts : t ∈ sortStrings (fs.map Prod.fst) :=
      mem_sortStrings.mpr ((lookupA_isSome_iff_mem t fs).mp hfs_some)
    refine ⟨hts, ?_⟩
    have hcl := cleanupOrphaned_lookup fs st g 0 t
    rw [if_neg (by simp [hfs_nn])] at hcl
    rw [Bool.and_eq_true]
    refine ⟨?_, hp2⟩
    rw [hcl]
    exact (lookupA_isSome_iff_mem t st.synced_threads).mpr hst

/-- Claim C10: for every completed run, the "deleted" statistic equals the
number of sync entries removed from the state during that run (orphan
cleanups plus terminal-status removals), whatever the external delete calls
returned and including sentinel entries dropped without a call. -/
theorem C10_deleted_stat_counts_removed_entries (fs : Fs) (st : SyncState) (g : GOracle)
    (clk : Clock)
    (hnodupF : (fs.map Prod.fst).Nodup)
    (hnodupS : (st.synced_threads.map Prod.fst).Nodup) :
    Option.all (fun p => p.1 == p.2) (runDeletedStatAndRemovals fs st g clk) = true := by
  unfold runDeletedStatAndRemovals
  cases hrun : runSync fs st g clk with
  | error e => rfl
  | ok out =>
    obtain ⟨fs', st', stats, k, ec⟩ := out
    have := runSync_deleted_count fs st g clk fs' st' stats k ec hnodupF hnodupS hrun
    simp [Option.all, this]

/-- Witness for C10: one orphaned entry cleaned up plus one closed task whose
delete call fails — the stat still counts both removals. -/
theorem C10_deleted_stat_counts_removed_entries_witness :
    ([("t1", Doc.obj metaClosed)].map (Prod.fst (α := String) (β := Doc))).Nodup ∧
    (([("t0", entryE1), ("t1", entryE1)].map
      (Prod.fst (α := String) (β := SyncedInfo))).Nodup) ∧
    Option.all (fun p => p.1 == p.2)
      (runDeletedStatAndRemovals [("t1", Doc.obj metaClosed)]
        (⟨[("t0", entryE1), ("t1", entryE1)], none, ⟨0, 0, 0, 0⟩⟩ : SyncState) gFail ⟨0, 0⟩) =
      true :=
  ⟨by decide, by decide,
   C10_deleted_stat_counts_removed_entries [("t1", Doc.obj metaClosed)]
     ⟨[("t0", entryE1), ("t1", entryE1)], none, ⟨0, 0, 0, 0⟩⟩ gFail ⟨0, 0⟩
     (by decide) (by decide)⟩

end CalendarSync
